import Mathlib

/-!
Verification of the SIO library core against its specification.

This file is a shallow embedding, in Lean 4, of the parts of the SIO
C sources that the specification's claims are about:

* the uniform error enumeration (`include/sio/err.h`),
* the growable buffer engine and the buffer pool (`src/buf.c`),
* the buffer-stream truncate operation (`src/stream/memory.c`),
* the generic `DOALL` read/write loops of the stream core (`src/stream.c`),
* the close operations of the file, timer and raw-memory backends
  (`src/stream/file.c`, `src/stream/timer.c`, `src/stream/memory.c`),
* the datagram pseudo-socket open path and its storage union
  (`src/stream/sock.c`, `include/sio/stream.h`),
* the address text form (`src/aux/addr.c`).

Modelling conventions, used throughout:

* The POSIX branch of each `#if` is embedded (the build picked in
  `platform.h` for a 64-bit POSIX target, so `SIO_MEMORY_ALIGNMENT = 8`).
* `size_t` values are embedded as `Nat`.  Allocation is modelled as always
  succeeding (the out-of-memory paths return early and are unreachable in
  the model), and consequently sizes are treated as ideal naturals: the
  explicit overflow guards of the C code are kept textually but never fire.
* A memory region is a total function `Nat → UInt8`; freshly allocated
  bytes are modelled as `0` (the C contents are indeterminate there, and
  no operation of the engine reads a byte at or beyond `size`, so the
  choice is not observable through the API).
* Syscalls (`close`, `munmap`, `mmap`, `socket`) are modelled as
  succeeding; their failure branches in the C code return early without
  touching the stream state.
-/

namespace Sio

/-- Error codes of `include/sio/err.h` (the constructors keep the C
names with the `SIO_`/`SIO_ERROR_` prefix dropped and are lower-cased;
only the codes reachable from the embedded functions are listed).
`success` is `SIO_SUCCESS = 0`. -/
inductive Err where
  | success
  | generic
  | param
  | mem
  | ioErr
  | eof
  | net
  | timeout
  | busy
  | perm
  | bufferTooSmall
  | interrupted
  | wouldblock
  | system
  | unsupported
  | fileReadonly
  | fileClosed
  | netNotSock
  deriving DecidableEq, Repr

/-- Growth strategies of `sio_buffer_growth_strategy_t` (`include/sio/buf.h`).
The header documents `fixed` as: "Fixed size, no automatic growth". -/
inductive Growth where
  | fixed
  | double
  | linear
  | optimal
  deriving DecidableEq, Repr

/-- The platform word alignment `SIO_MEMORY_ALIGNMENT` (8 on x86-64/arm64,
`include/sio/platform.h`). -/
def alignment : Nat := 8

/-- Model of `SIO_BUFFER_MAX_SIZE = SIZE_MAX` (`include/sio/buf.h`). -/
def maxBufSize : Nat := 2 ^ 64 - 1

/-- Model of `SIO_BUFFER_DEFAULT_SIZE` (`include/sio/buf.h`). -/
def defaultBufSize : Nat := 4096

/-- Model of `sio_align_size` (`src/buf.c:29`):
`(size + SIO_BUFFER_ALIGNMENT - 1) & ~(SIO_BUFFER_ALIGNMENT - 1)`.
For the power-of-two alignment 8 the mask expression rounds down to a
multiple of 8, written here with subtraction of the remainder. -/
def alignSize (size : Nat) : Nat :=
  (size + (alignment - 1)) - (size + (alignment - 1)) % alignment

/-- Model of `sio_buffer_t` (`include/sio/buf.h:45`).  The allocated
region is the function `data`; only indices below `capacity` correspond
to allocated bytes. -/
structure Buffer where
  data : Nat → UInt8
  size : Nat
  capacity : Nat
  position : Nat
  owns_memory : Bool
  is_mmap : Bool
  growth_strategy : Growth
  growth_factor : Nat

/-- Loop of the `SIO_BUFFER_GROWTH_DOUBLE` case of
`sio_calculate_new_capacity` (`src/buf.c:107`), with fuel for
termination (the C loop diverges when the capacity is `0`; the fuel is
chosen by the caller so that the fuel-exhaustion branch is reached only
in that divergent case). -/
def doubleLoop (min_capacity : Nat) : Nat → Nat → Nat
  | 0, cap => cap
  | fuel + 1, cap =>
    if cap < min_capacity then
      if cap > maxBufSize / 2 then min_capacity
      else doubleLoop min_capacity fuel (cap * 2)
    else cap

/-- Loop of the `SIO_BUFFER_GROWTH_LINEAR` case of
`sio_calculate_new_capacity` (`src/buf.c:118`), with fuel as in
`doubleLoop`. -/
def linearLoop (min_capacity growth_factor : Nat) : Nat → Nat → Nat
  | 0, cap => cap
  | fuel + 1, cap =>
    if cap < min_capacity then
      if cap > maxBufSize - growth_factor then min_capacity
      else linearLoop min_capacity growth_factor fuel (cap + growth_factor)
    else cap

/-- Loop of the `SIO_BUFFER_GROWTH_OPTIMAL` case of
`sio_calculate_new_capacity` (`src/buf.c:129`): double below 64 KiB,
then grow by 50%, with the same overflow clamps as the C code. -/
def optimalLoop (min_capacity : Nat) : Nat → Nat → Nat
  | 0, cap => cap
  | fuel + 1, cap =>
    if cap < min_capacity then
      if cap < 65536 then
        if cap > maxBufSize / 2 then min_capacity
        else optimalLoop min_capacity fuel (cap * 2)
      else
        if cap > maxBufSize - cap / 2 then min_capacity
        else optimalLoop min_capacity fuel (cap + cap / 2)
    else cap

/-- Model of `sio_calculate_new_capacity` (`src/buf.c:99`).  Note the
`fixed` case: the C code sets `new_capacity = min_capacity`, it does
not refuse growth.  The final line is the clamp
`return new_capacity < min_capacity ? min_capacity : new_capacity`. -/
def calculateNewCapacity (b : Buffer) (min_capacity : Nat) : Nat :=
  let new_capacity :=
    match b.growth_strategy with
    | .fixed => min_capacity
    | .double => doubleLoop min_capacity (min_capacity + 1) b.capacity
    | .linear => linearLoop min_capacity b.growth_factor (min_capacity + 1) b.capacity
    | .optimal => optimalLoop min_capacity (min_capacity + 1) b.capacity
  if new_capacity < min_capacity then min_capacity else new_capacity

/-- Model of `sio_buffer_create_ex` (`src/buf.c:161`).  The `buffer`
null check and the allocation-failure path are unreachable in the model
(allocation succeeds), so the function returns the buffer directly. -/
def bufferCreateEx (initial_capacity : Nat) (growth_strategy : Growth)
    (growth_factor : Nat) : Buffer :=
  let ic := if initial_capacity = 0 then defaultBufSize else initial_capacity
  let ic := alignSize ic
  { data := fun _ => 0
    size := 0
    capacity := ic
    position := 0
    owns_memory := true
    is_mmap := false
    growth_strategy := growth_strategy
    growth_factor := growth_factor }

/-- Model of `sio_buffer_create` (`src/buf.c:156`): `create_ex` with the
`OPTIMAL` strategy and factor `0`. -/
def bufferCreate (initial_capacity : Nat) : Buffer :=
  bufferCreateEx initial_capacity .optimal 0

/-- Model of `sio_buffer_from_memory` (`src/buf.c:192`): wraps an
external region as a non-owning buffer with the `FIXED` strategy.
Note that `capacity` is set to the caller-supplied `size` with no
alignment applied. -/
def bufferFromMemory (mem : Nat → UInt8) (size : Nat) : Buffer :=
  { data := mem
    size := size
    capacity := size
    position := 0
    owns_memory := false
    is_mmap := false
    growth_strategy := .fixed
    growth_factor := 0 }

/-- Model of the POSIX branch of `sio_buffer_mmap_file` (`src/buf.c:208`)
on a file that exists and maps successfully; the file is embedded as its
byte contents.  The function sets `is_mmap = 1`, `owns_memory = 1`, the
`FIXED` strategy, and `capacity = size =` file length (unaligned).
The `read_only` argument only selects the `open`/`mmap` protection
flags; it is not recorded anywhere in the resulting `sio_buffer_t`. -/
def bufferMmapFile (file : List UInt8) (read_only : Bool) : Buffer :=
  { data := fun i => file.getD i 0
    size := file.length
    capacity := file.length
    position := 0
    owns_memory := true
    is_mmap := true
    growth_strategy := .fixed
    growth_factor := 0 }

/-- Model of `sio_buffer_resize` (`src/buf.c:367`), POSIX
`posix_memalign` branch, general (non-in-place) case: a new aligned
region is allocated, `min(size, new_capacity)` bytes are copied from the
old region, and the old region is freed.  Bytes of the new region beyond
the copied prefix are fresh (modelled as `0`).  Returns the error code
and the resulting buffer (unchanged on failure). -/
def bufferResize (b : Buffer) (new_capacity : Nat) : Err × Buffer :=
  if !b.owns_memory || b.is_mmap then (.fileReadonly, b)
  else
    let nc := alignSize new_capacity
    let data1 : Nat → UInt8 := fun i => if i < min b.size nc then b.data i else 0
    let b1 := { b with data := data1, capacity := nc }
    let b2 :=
      if nc < b.size then
        let b1 := { b1 with size := nc }
        if b1.position > b1.size then { b1 with position := b1.size } else b1
      else b1
    (.success, b2)

/-- Model of `sio_buffer_reserve` (`src/buf.c:333`).  The subtraction
`capacity - size` is the C `size_t` subtraction, which agrees with the
truncated `Nat` subtraction whenever `size ≤ capacity` (the buffer
invariant); the `required_capacity < size` overflow guard is kept but
never fires over `Nat`. -/
def bufferReserve (b : Buffer) (additional_capacity : Nat) : Err × Buffer :=
  if b.capacity - b.size ≥ additional_capacity then (.success, b)
  else
    let required_capacity := b.size + additional_capacity
    if required_capacity < b.size then (.bufferTooSmall, b)
    else bufferResize b required_capacity

/-- Model of `sio_buffer_ensure_capacity` (`src/buf.c:354`). -/
def bufferEnsureCapacity (b : Buffer) (min_capacity : Nat) : Err × Buffer :=
  if b.capacity ≥ min_capacity then (.success, b)
  else bufferResize b min_capacity

/-- Model of `sio_buffer_shrink_to_fit` (`src/buf.c:437`). -/
def bufferShrinkToFit (b : Buffer) : Err × Buffer :=
  if !b.owns_memory || b.is_mmap then (.fileReadonly, b)
  else if b.size = b.capacity then (.success, b)
  else bufferResize b b.size

/-- Model of `sio_buffer_write` (`src/buf.c:456`).  The written bytes are
the list `src`; `src.length` is the C `size` argument.  Note the
read-only guard is `is_mmap && !owns_memory`, and the `new_size <
position` overflow guard is kept but never fires over `Nat`. -/
def bufferWrite (b : Buffer) (src : List UInt8) : Err × Buffer :=
  if b.is_mmap && !b.owns_memory then (.fileReadonly, b)
  else
    let new_size := b.position + src.length
    if new_size < b.position then (.bufferTooSmall, b)
    else
      let grown : Err × Buffer :=
        if new_size > b.capacity then
          bufferResize b (calculateNewCapacity b new_size)
        else (.success, b)
      if grown.1 ≠ .success then grown
      else
        let b1 := grown.2
        let b2 :=
          if src.length > 0 then
            { b1 with
              data := fun i =>
                if b1.position ≤ i ∧ i < b1.position + src.length then
                  src.getD (i - b1.position) 0
                else b1.data i
              position := b1.position + src.length }
          else b1
        let b3 := if b2.position > b2.size then { b2 with size := b2.position } else b2
        (.success, b3)

/-- Model of `sio_buffer_read` (`src/buf.c:497`).  Returns the error
code, the resulting buffer and the bytes copied out (`to_read` many). -/
def bufferRead (b : Buffer) (size : Nat) : Err × Buffer × List UInt8 :=
  let available := b.size - b.position
  let to_read := if size < available then size else available
  let out := (List.range to_read).map fun i => b.data (b.position + i)
  let b1 := if to_read > 0 then { b with position := b.position + to_read } else b
  (if to_read < size then .eof else .success, b1, out)

/-- Model of `sio_buffer_seek` (`src/buf.c:521`). -/
def bufferSeek (b : Buffer) (position : Nat) : Err × Buffer :=
  if position > b.size then (.param, b)
  else (.success, { b with position := position })

/-- Model of `sio_buffer_seek_relative` (`src/buf.c:535`); `offset` is
the C `int64_t` argument. -/
def bufferSeekRelative (b : Buffer) (offset : Int) : Err × Buffer :=
  if offset < 0 then
    if (-offset).toNat > b.position then (.param, b)
    else (.success, { b with position := b.position - (-offset).toNat })
  else
    let new_pos := b.position + offset.toNat
    if new_pos > b.size then (.param, b)
    else (.success, { b with position := new_pos })

/-- Model of `sio_buffer_clear` (`src/buf.c:566`). -/
def bufferClear (b : Buffer) : Buffer :=
  { b with size := 0, position := 0 }

/-- Model of `buffer_truncate` of the buffer stream
(`src/stream/memory.c:369`).  `writable` is the test
`stream->flags & SIO_STREAM_WRITE` of the surrounding stream; the
`size > SIZE_MAX` guard of the C code compares two 64-bit values and
never fires.  The grow branch zero-fills the bytes between the old and
the new size. -/
def streamBufferTruncate (writable : Bool) (b : Buffer) (size : Nat) : Err × Buffer :=
  if !writable then (.perm, b)
  else if size < b.size then
    let b1 := { b with size := size }
    let b2 := if b1.position > b1.size then { b1 with position := b1.size } else b1
    if b2.size < b2.capacity / 2 then bufferShrinkToFit b2
    else (.success, b2)
  else if size > b.size then
    let grown := bufferEnsureCapacity b size
    if grown.1 ≠ .success then grown
    else
      let b1 := grown.2
      if b1.size < size then
        (.success,
          { b1 with
            data := fun i => if b1.size ≤ i ∧ i < size then 0 else b1.data i
            size := size })
      else (.success, b1)
  else (.success, b)

/-- Model of `sio_buffer_pool_t` (`include/sio/buf.h:314`).
`buffers.length = capacity = used_flags.length` holds for every pool
built by the modelled operations. -/
structure Pool where
  buffers : List Buffer
  used_flags : List Bool
  capacity : Nat
  size : Nat
  buffer_size : Nat

/-- Model of `sio_buffer_pool_create` (`src/buf.c:663`) for valid
arguments; allocation and the per-buffer `sio_buffer_create` calls
succeed in the model. -/
def poolCreate (buffer_count buffer_size : Nat) : Err × Pool :=
  if buffer_count = 0 ∨ buffer_size = 0 then
    (.param, ⟨[], [], 0, 0, 0⟩)
  else
    (.success,
      { buffers := List.replicate buffer_count (bufferCreate buffer_size)
        used_flags := List.replicate buffer_count false
        capacity := buffer_count
        size := 0
        buffer_size := buffer_size })

/-- Model of `sio_buffer_pool_acquire` (`src/buf.c:729`): scan for the
first unused index, set its flag, clear the buffer, bump `size`.
Returns the index of the acquired buffer (the C code returns the
pointer `&pool->buffers[i]`). -/
def poolAcquire (p : Pool) : Err × Pool × Option Nat :=
  match p.used_flags.findIdx? (fun u => !u) with
  | some i =>
      (.success,
        { p with
          used_flags := p.used_flags.set i true
          buffers := p.buffers.set i (bufferClear (p.buffers.getD i (bufferCreate p.buffer_size)))
          size := p.size + 1 },
        some i)
  | none => (.busy, p, none)

/-- Model of `sio_buffer_pool_release` (`src/buf.c:755`).  The C code
identifies the buffer by comparing its address against
`&pool->buffers[i]`; the model takes the index `i` directly, with
`i ≥ capacity` standing for a pointer outside the pool. -/
def poolRelease (p : Pool) (i : Nat) : Err × Pool :=
  if i < p.capacity then
    if p.used_flags.getD i false then
      (.success, { p with used_flags := p.used_flags.set i false, size := p.size - 1 })
    else (.fileClosed, p)
  else (.param, p)

/-- Model of `sio_buffer_pool_resize` (`src/buf.c:779`); allocation
succeeds in the model.  The first `copy_count = min(new_count,
capacity)` buffers and flags are copied, any further slots are fresh
buffers with a cleared flag, and the buffers at indices `≥ copy_count`
of the old pool are destroyed — whether or not their used flag was set.
`pool->size` is not updated. -/
def poolResize (p : Pool) (new_buffer_count : Nat) : Err × Pool :=
  if new_buffer_count < p.size then (.busy, p)
  else if new_buffer_count = p.capacity then (.success, p)
  else
    let copy_count := min new_buffer_count p.capacity
    (.success,
      { p with
        buffers := p.buffers.take copy_count ++
          List.replicate (new_buffer_count - copy_count) (bufferCreate p.buffer_size)
        used_flags := p.used_flags.take copy_count ++
          List.replicate (new_buffer_count - copy_count) false
        capacity := new_buffer_count })

/-! ### Stream core: the generic `DOALL` read and write loops

`sio_stream_read` / `sio_stream_write` (`src/stream.c:125` / `:193`)
treat the backend `ops->read` / `ops->write` slot as a black box.  The
backend is embedded as a function from a backend state and a request to
a new state, an error code and the transferred bytes; the loops below
are the exact control flow of the C code.  The `SIO_DOALL` /
`SIO_DOALL_NONBLOCK` tests (`flags & SIO_DOALL`) are embedded as the
two booleans of `FFlags`. -/

/-- Per-call flags of the stream core: the results of the tests
`flags & SIO_DOALL` and `flags & SIO_DOALL_NONBLOCK` in
`sio_stream_read`/`sio_stream_write`. -/
structure FFlags where
  doall : Bool
  doall_nonblock : Bool
  deriving DecidableEq, Repr

/-- While-loop of the `SIO_DOALL` branch of `sio_stream_read`
(`src/stream.c:157`).  Arguments in order: the backend read slot, the
`SIO_DOALL_NONBLOCK` test, the requested `size`, fuel (the C loop needs
at most `size` iterations, since every continuing iteration transfers
at least one byte), the backend state, `total_read`, the bytes
deposited so far into `buf`, and the last error.  Returns the final
backend state, `total_read`, the deposited bytes and the last error. -/
def doallReadLoop {σ : Type} (backend : σ → Nat → σ × Err × List UInt8)
    (nonblock : Bool) (size : Nat) :
    Nat → σ → Nat → List UInt8 → Err → σ × Nat × List UInt8 × Err
  | 0, st, total, acc, err => (st, total, acc, err)
  | fuel + 1, st, total, acc, err =>
    if total < size then
      match backend st (size - total) with
      | (st1, e, bs) =>
        let total1 := total + bs.length
        let acc1 := acc ++ bs
        if e ≠ .success ∨ bs.length = 0 then (st1, total1, acc1, e)
        else if nonblock then (st1, total1, acc1, e)
        else doallReadLoop backend nonblock size fuel st1 total1 acc1 e
    else (st, total, acc, err)

/-- Model of `sio_stream_read` (`src/stream.c:125`) after the stream /
operation validity checks: zero-size fast path, the `SIO_DOALL` loop
with its final
`return total_read < size ? (total_read > 0 ? SIO_ERROR_EOF : err) : SIO_SUCCESS`,
or a single backend call.  Returns the backend state, the returned
error, the `*bytes_read` out-value and the deposited bytes. -/
def sioStreamRead {σ : Type} (backend : σ → Nat → σ × Err × List UInt8)
    (st : σ) (size : Nat) (flags : FFlags) : σ × Err × Nat × List UInt8 :=
  if size = 0 then (st, .success, 0, [])
  else if flags.doall then
    match doallReadLoop backend flags.doall_nonblock size (size + 1) st 0 [] .success with
    | (st1, total, acc, err) =>
      if total < size then (st1, if total > 0 then .eof else err, total, acc)
      else (st1, .success, total, acc)
  else
    match backend st size with
    | (st1, e, bs) => (st1, e, bs.length, bs)

/-- While-loop of the `SIO_DOALL` branch of `sio_stream_write`
(`src/stream.c:225`).  The backend write slot receives the not yet
written suffix of the source bytes (`buf_ptr + total_written`,
`size - total_written`) and reports the bytes written this call. -/
def doallWriteLoop {σ : Type} (backend : σ → List UInt8 → σ × Err × Nat)
    (nonblock : Bool) (src : List UInt8) :
    Nat → σ → Nat → Err → σ × Nat × Err
  | 0, st, total, err => (st, total, err)
  | fuel + 1, st, total, err =>
    if total < src.length then
      match backend st (src.drop total) with
      | (st1, e, n) =>
        if e ≠ .success ∨ n = 0 then (st1, total + n, e)
        else if nonblock then (st1, total + n, e)
        else doallWriteLoop backend nonblock src fuel st1 (total + n) e
    else (st, total, err)

/-- Model of `sio_stream_write` (`src/stream.c:193`) after the validity
checks, with the final
`return total_written < size ? (total_written > 0 ? SIO_ERROR_IO : err) : SIO_SUCCESS`
of the `SIO_DOALL` branch. -/
def sioStreamWrite {σ : Type} (backend : σ → List UInt8 → σ × Err × Nat)
    (st : σ) (src : List UInt8) (flags : FFlags) : σ × Err × Nat :=
  if src.length = 0 then (st, .success, 0)
  else if flags.doall then
    match doallWriteLoop backend flags.doall_nonblock src (src.length + 1) st 0 .success with
    | (st1, total, err) =>
      if total < src.length then (st1, if total > 0 then .ioErr else err, total)
      else (st1, .success, total)
  else
    match backend st src with
    | (st1, e, n) => (st1, e, n)

/-! ### Backend close operations (file, timer, raw memory) -/

/-- File storage of the stream union, POSIX branch
(`include/sio/stream.h:200`): the descriptor and the optional mapping.
`mmap_data` models whether the `mmap_data` pointer is non-NULL. -/
structure FileStorage where
  fd : Int
  mmap_data : Bool
  mmap_size : Nat
  deriving DecidableEq, Repr

/-- Model of `file_close` (`src/stream/file.c:256`), POSIX branch, with
the `close`/`munmap` syscalls succeeding: a non-negative descriptor is
closed and replaced by the sentinel `-1`; a present mapping is unmapped
and cleared; the function returns success — also when the descriptor
already is the sentinel. -/
def fileClose (s : FileStorage) : Err × FileStorage :=
  let s1 := if s.fd ≥ 0 then { s with fd := -1 } else s
  let s2 := if s1.mmap_data then { s1 with mmap_data := false, mmap_size := 0 } else s1
  (.success, s2)

/-- Timer storage of the stream union, POSIX branch
(`include/sio/stream.h:235`): the timerfd descriptor. -/
structure TimerStorage where
  fd : Int
  deriving DecidableEq, Repr

/-- Model of `timer_close` (`src/stream/timer.c:149`), POSIX branch,
with the `close` syscall succeeding. -/
def timerClose (s : TimerStorage) : Err × TimerStorage :=
  if s.fd ≥ 0 then (.success, { s with fd := -1 }) else (.success, s)

/-- Raw-memory storage of the stream union
(`include/sio/stream.h:286`); `data_present` models whether the `data`
pointer is non-NULL. -/
structure RawmemStorage where
  data_present : Bool
  size : Nat
  position : Nat
  deriving DecidableEq, Repr

/-- Model of `rawmem_close` (`src/stream/memory.c:560`): clears the
pointer, the size and the position and returns success. -/
def rawmemClose (_s : RawmemStorage) : Err × RawmemStorage :=
  (.success, { data_present := false, size := 0, position := 0 })

/-! ### The pseudo-socket open path and the storage union

`sio_stream_storage_t` (`include/sio/stream.h:198`) is a C union: every
member starts at offset 0 (C11 6.7.2.1/16), so `socket.fd` (an `int`,
bytes 0–3 on the modelled LP64 little-endian target) occupies the same
storage as the first four bytes of `pseudo_socket.addr`, which are the
`sa_family` field (a 16-bit integer at offset 0 of every `sockaddr`
variant) followed by `sin_port` (16 bits, network byte order, at offset
2 of `sockaddr_in`).  The union region is embedded as a byte function;
the `len` field of `sio_addr_t` lies at offset 128 (after the
`sockaddr_storage` union member) and is kept as a separate field. -/

/-- Size in bytes of a C `int` on the modelled target. -/
def intSize : Nat := 4

/-- The native `AF_INET` value of the modelled target (Linux). -/
def afInet : Nat := 2

/-- Little-endian byte `i` of a natural number. -/
def leByte (v i : Nat) : UInt8 := UInt8.ofNat (v / 256 ^ i % 256)

/-- Bytes of a `struct sockaddr_in` built by `sio_addr_from_parts`
(`src/aux/addr.c:56`): the struct is zeroed, `sin_family` (16-bit,
host order, little-endian bytes) is set to the address family,
`sin_port` holds `htons(port)` (big-endian bytes at offsets 2–3) and
`sin_addr` holds the four address bytes `a.b.c.d` at offsets 4–7. -/
def sockaddrInBytes (family port a b c d : Nat) : Nat → UInt8 := fun i =>
  if i = 0 then UInt8.ofNat (family % 256)
  else if i = 1 then UInt8.ofNat (family / 256 % 256)
  else if i = 2 then UInt8.ofNat (port / 256 % 256)
  else if i = 3 then UInt8.ofNat (port % 256)
  else if i = 4 then UInt8.ofNat a
  else if i = 5 then UInt8.ofNat b
  else if i = 6 then UInt8.ofNat c
  else if i = 7 then UInt8.ofNat d
  else 0

/-- A `sio_addr_t` value (`include/sio/aux/addr.h:81`) as stored in
memory: the bytes of the leading `sockaddr` union and the trailing
`len` field. -/
structure AddrStorage where
  bytes : Nat → UInt8
  len : Nat

/-- The `sa_family` field read back from stored `sockaddr` bytes (a
16-bit little-endian integer at offset 0). -/
def sockaddrFamily (bytes : Nat → UInt8) : Nat :=
  (bytes 0).toNat + 256 * (bytes 1).toNat

/-- Model of the datagram-client branch of `sio_stream_open_socket`
(`src/stream/sock.c:166`), POSIX, with `create_socket` succeeding and
returning descriptor `fd`: the stream storage after
`memcpy(&stream->data.pseudo_socket.addr, addr, sizeof(sio_addr_t))`
followed by `stream->data.socket.fd = sock`.  Because the two union
members alias, the `fd` store overwrites bytes 0–3 of the stored peer
address. -/
def openSocketPseudoStorage (addr : AddrStorage) (fd : Nat) : AddrStorage :=
  { bytes := fun i => if i < intSize then leByte fd i else addr.bytes i
    len := addr.len }

/-- Destination address of the `sendto` call made by the pseudo-socket
branch of `socket_write` (`src/stream/sock.c:861`): the call passes
`&stream->data.pseudo_socket.addr.addr.sa`, i.e. exactly the stored
union bytes. -/
def pseudoWriteSendtoTarget (storage : AddrStorage) : Nat → UInt8 :=
  storage.bytes

/-! ### Address text form

`sio_addr_to_string` (`src/aux/addr.c:127`) renders an IPv4 address as
`"<ip>:<port>"` and an IPv6 address as `"[<ip>]:<port>"`, delegating
the IP part to the system `inet_ntop` and appending the port with
`snprintf("%u")` / `snprintf("]:%u")`.  The inverse direction,
`sio_addr_from_string`, is declared in `include/sio/aux/addr.h:183`
("host:port or [host]:port for IPv6") but has no definition anywhere in
the sources, and `inet_ntop`/`inet_pton` are system functions; both are
therefore modelled from the spec below. -/

/-- Decimal or lower-case hexadecimal digit value of a character. -/
def charToDigit? (c : Char) : Option Nat :=
  if '0' ≤ c ∧ c ≤ '9' then some (c.toNat - 48)
  else if 'a' ≤ c ∧ c ≤ 'f' then some (c.toNat - 87)
  else none

/-- Whether `c` is a digit of the numeral base `base`. -/
def isDigitB (base : Nat) (c : Char) : Bool :=
  match charToDigit? c with
  | some d => decide (d < base)
  | none => false

/-- Numeric value of a digit string in base `base`. -/
def valBase (base : Nat) (cs : List Char) : Nat :=
  cs.foldl (fun a c => a * base + (charToDigit? c).getD 0) 0

/-- Parse a non-empty all-digit string in base `base`; `none` otherwise. -/
def parseBase? (base : Nat) (cs : List Char) : Option Nat :=
  if cs.isEmpty then none
  else if cs.all (isDigitB base) then some (valBase base cs) else none

/-- Digits of `n` in base `base`, most significant first, with fuel
(`n + 1` suffices for every base `≥ 2`). -/
def natToBaseAux (base : Nat) : Nat → Nat → List Char
  | 0, _ => []
  | fuel + 1, n =>
    if n < base then [Nat.digitChar n]
    else natToBaseAux base fuel (n / base) ++ [Nat.digitChar (n % base)]

/-- Decimal rendering of a natural number (the `%u` of `snprintf` and
the dotted-quad octets of `inet_ntop` for `AF_INET`). -/
def natToDec (n : Nat) : List Char := natToBaseAux 10 (n + 1) n

/-- Lower-case hexadecimal rendering of a natural number (the `%x`
group rendering of `inet_ntop` for `AF_INET6`). -/
def natToHex (n : Nat) : List Char := natToBaseAux 16 (n + 1) n

/-- Join character lists with a separating character between them. -/
def joinSep (sep : Char) : List (List Char) → List Char
  | [] => []
  | [g] => g
  | g :: gs => g ++ sep :: joinSep sep gs

/-- Split a character list at every occurrence of `sep` (the inverse of
`joinSep`). -/
def splitSep (sep : Char) : List Char → List (List Char)
  | [] => [[]]
  | c :: rest =>
    if c = sep then [] :: splitSep sep rest
    else
      match splitSep sep rest with
      | g :: gs => (c :: g) :: gs
      | [] => [[c]]

/-- Modelled from the spec: the text form the system `inet_ntop`
produces for an `AF_INET` address — the four address bytes in decimal,
joined by dots. -/
def inetNtopV4 (a b c d : Nat) : List Char :=
  natToDec a ++ '.' :: natToDec b ++ '.' :: natToDec c ++ '.' :: natToDec d

/-- Modelled from the spec: the text form of an `AF_INET6` address —
the eight 16-bit groups in lower-case hexadecimal, joined by colons
(zero-run compression is not modelled; the spec fixes no particular
text form, only that the form round-trips). -/
def inetNtopV6 (groups : List Nat) : List Char :=
  joinSep ':' (groups.map natToHex)

/-- An address value in the sense of the spec: family, IP and port.
`v4 a b c d port` is the IPv4 address `a.b.c.d` with the given port;
`v6 groups port` is the IPv6 address with the given eight 16-bit
groups. -/
inductive Addr where
  | v4 (a b c d : Nat) (port : Nat)
  | v6 (groups : List Nat) (port : Nat)
  deriving DecidableEq, Repr

/-- Well-formedness of an address value: octets below 256, eight groups
below 65536, port below 65536 — the ranges representable in
`sockaddr_in` / `sockaddr_in6`. -/
def addrWF : Addr → Prop
  | .v4 a b c d port => a < 256 ∧ b < 256 ∧ c < 256 ∧ d < 256 ∧ port < 65536
  | .v6 groups port => groups.length = 8 ∧ (∀ g ∈ groups, g < 65536) ∧ port < 65536

instance : (a : Addr) → Decidable (addrWF a)
  | .v4 _ _ _ _ _ => by unfold addrWF; infer_instance
  | .v6 _ _ => by unfold addrWF; infer_instance

/-- Model of `sio_addr_to_string` (`src/aux/addr.c:127`) with a
large-enough destination buffer: `"<ip>:<port>"` for `AF_INET` and
`"[<ip>]:<port>"` for `AF_INET6`, the IP part delegated to the
modelled `inet_ntop`. -/
def addrToString : Addr → List Char
  | .v4 a b c d port => inetNtopV4 a b c d ++ ':' :: natToDec port
  | .v6 groups port => '[' :: (inetNtopV6 groups ++ ']' :: ':' :: natToDec port)

/-- Apply a fallible function to every list element, failing if any
application fails. -/
def mapOption? (f : α → Option β) : List α → Option (List β)
  | [] => some []
  | a :: as =>
    match f a, mapOption? f as with
    | some b, some bs => some (b :: bs)
    | _, _ => none

/-- Parse a decimal port, requiring the 16-bit range. -/
def parsePort? (cs : List Char) : Option Nat :=
  match parseBase? 10 cs with
  | some p => if p < 65536 then some p else none
  | none => none

/-- Parse a decimal IPv4 octet, requiring the 8-bit range. -/
def parseOctet? (cs : List Char) : Option Nat :=
  match parseBase? 10 cs with
  | some v => if v < 256 then some v else none
  | none => none

/-- Parse one lower-case hexadecimal IPv6 group, requiring the 16-bit
range. -/
def parseGroup? (cs : List Char) : Option Nat :=
  match parseBase? 16 cs with
  | some v => if v < 65536 then some v else none
  | none => none

/-- Modelled from the spec: the IPv4 case of `sio_addr_from_string` —
`"a.b.c.d:port"`. -/
def parseV4? (s : List Char) : Option Addr :=
  match splitSep ':' s with
  | [hostCs, portCs] =>
    match splitSep '.' hostCs with
    | [acs, bcs, ccs, dcs] =>
      match parseOctet? acs, parseOctet? bcs, parseOctet? ccs, parseOctet? dcs,
          parsePort? portCs with
      | some a, some b, some c, some d, some p => some (.v4 a b c d p)
      | _, _, _, _, _ => none
    | _ => none
  | _ => none

/-- Test used to find the closing bracket of an IPv6 text form. -/
def neRBracket (c : Char) : Bool := c ≠ ']'

/-- Modelled from the spec: the IPv6 case of `sio_addr_from_string` —
the part after the opening bracket of `"[h]:port"`. -/
def parseV6? (rest : List Char) : Option Addr :=
  let host := rest.takeWhile neRBracket
  match rest.dropWhile neRBracket with
  | b :: c :: portCs =>
    if b = ']' ∧ c = ':' then
      match mapOption? parseGroup? (splitSep ':' host) with
      | some gs =>
        if gs.length = 8 then
          match parsePort? portCs with
          | some p => some (.v6 gs p)
          | none => none
        else none
      | none => none
    else none
  | _ => none

/-- Modelled from the spec: `sio_addr_from_string`
(`include/sio/aux/addr.h:183`, declared but not implemented in the
sources): `"host:port"` for IPv4 and `"[host]:port"` for IPv6. -/
def addrFromString? (s : List Char) : Option Addr :=
  match s with
  | [] => none
  | c :: rest => if c = '[' then parseV6? rest else parseV4? s

/-! ### Auxiliary definitions for the statements -/

/-- The buffer invariant of the spec: `0 ≤ position ≤ size ≤ capacity`
(the lower bound is implicit over `Nat`). -/
def BufInv (b : Buffer) : Prop :=
  b.position ≤ b.size ∧ b.size ≤ b.capacity

instance (b : Buffer) : Decidable (BufInv b) := by
  unfold BufInv; infer_instance

/-- Test backend for the stream-core read loop: a scripted `ops->read`
slot whose state is the list of remaining responses; each call pops and
returns the next `(error, bytes)` pair, and an exhausted script reports
end-of-stream with no bytes. -/
def scriptReadBackend :
    List (Err × List UInt8) → Nat → List (Err × List UInt8) × Err × List UInt8
  | [], _ => ([], .eof, [])
  | r :: rest, _ => (rest, r.1, r.2)

/-- Test backend for the stream-core write loop: a scripted
`ops->write` slot returning the next `(error, bytes_written)` pair. -/
def scriptWriteBackend :
    List (Err × Nat) → List UInt8 → List (Err × Nat) × Err × Nat
  | [], _ => ([], .ioErr, 0)
  | r :: rest, _ => (rest, r.1, r.2)

/-! ## Theorems -/

/-- C1, counterexample.  A stream whose backend delivers one byte and
then reports end-of-stream, read with `DOALL` (and `DOALL_NONBLOCK`
clear) for two bytes: one byte was read in total, yet the call returns
`SIO_ERROR_EOF`, not success — `sio_stream_read` computes
`(total_read > 0) ? SIO_ERROR_EOF : err` for a short transfer
(`src/stream.c:183`), the opposite of the claimed
"success with the partial byte count". -/
theorem claim_C1_counterexample :
    (sioStreamRead scriptReadBackend [(.success, [65]), (.eof, [])] 2
        ⟨true, false⟩ =
      ([], .eof, 1, [65])) ∧ Err.eof ≠ Err.success := by
  constructor
  · rfl
  · decide

/-- C2, counterexample.  A stream whose backend writes one byte and
then reports would-block, written with `DOALL` (and `DOALL_NONBLOCK`
clear) for two bytes: the backend made progress and then stopped, yet
the call returns `SIO_ERROR_IO` with the short count, not success —
`sio_stream_write` computes `(total_written > 0) ? SIO_ERROR_IO : err`
for a short transfer (`src/stream.c:251`), the opposite of the claimed
"success with the short count"; and a loop with no progress at all
propagates the backend's error (`would-block` here), not an I/O
error. -/
theorem claim_C2_counterexample :
    (sioStreamWrite scriptWriteBackend [(.success, 1), (.wouldblock, 0)] [65, 66]
        ⟨true, false⟩ =
      ([], .ioErr, 1)) ∧ Err.ioErr ≠ Err.success ∧
    (sioStreamWrite scriptWriteBackend [(.wouldblock, 0)] [65, 66]
        ⟨true, false⟩ =
      ([], .wouldblock, 0)) ∧ Err.wouldblock ≠ Err.ioErr := by
  refine ⟨rfl, by decide, rfl, by decide⟩

/-- C3 (code bug).  Opening a datagram pseudo-socket stores the peer
address into `data.pseudo_socket.addr` and then stores the newly
created descriptor into `data.socket.fd`; the two union members alias
at offset 0, so the descriptor store overwrites the first four bytes of
the retained address — its `sa_family` field (and, for IPv4, the
port).  For the UDP test address `127.0.0.1:9877` (`AF_INET = 2`) and
descriptor `3`, the stored peer's family field reads back as `3`, and
the `sendto` destination of every subsequent pseudo-socket write is
that clobbered address, not the address passed to open. -/
theorem claim_C3_bug :
    sockaddrFamily (sockaddrInBytes afInet 9877 127 0 0 1) = afInet ∧
    sockaddrFamily
      (openSocketPseudoStorage ⟨sockaddrInBytes afInet 9877 127 0 0 1, 16⟩ 3).bytes = 3 ∧
    sockaddrFamily
      (pseudoWriteSendtoTarget
        (openSocketPseudoStorage ⟨sockaddrInBytes afInet 9877 127 0 0 1, 16⟩ 3)) ≠
      afInet ∧
    (openSocketPseudoStorage ⟨sockaddrInBytes afInet 9877 127 0 0 1, 16⟩ 3).bytes 0 ≠
      sockaddrInBytes afInet 9877 127 0 0 1 0 := by
  refine ⟨by decide, by decide, by decide, by decide⟩

/-- C4 (code bug).  A buffer created with the `FIXED` growth strategy
and capacity 8 accepts a 16-byte write: `sio_calculate_new_capacity`
returns `min_capacity` for `SIO_BUFFER_GROWTH_FIXED` (`src/buf.c:103`)
instead of refusing growth, so `sio_buffer_write` resizes the owning
buffer to 16 bytes and succeeds — contrary to the claim (and to the
header's own description of `FIXED`: "Fixed size, no automatic
growth"); capacity, size and position all change.  A non-owning fixed
buffer (`from_memory`) does fail, but with `SIO_ERROR_FILE_READONLY`
from `sio_buffer_resize`, not with buffer-too-small. -/
theorem claim_C4_bug :
    (bufferCreateEx 8 .fixed 0).growth_strategy = .fixed ∧
    (bufferCreateEx 8 .fixed 0).capacity = 8 ∧
    (bufferWrite (bufferCreateEx 8 .fixed 0) (List.replicate 16 65)).1 = .success ∧
    (bufferWrite (bufferCreateEx 8 .fixed 0) (List.replicate 16 65)).1 ≠
      .bufferTooSmall ∧
    (bufferWrite (bufferCreateEx 8 .fixed 0) (List.replicate 16 65)).2.capacity = 16 ∧
    (bufferWrite (bufferCreateEx 8 .fixed 0) (List.replicate 16 65)).2.size = 16 ∧
    (bufferWrite (bufferCreateEx 8 .fixed 0) (List.replicate 16 65)).2.position = 16 ∧
    (bufferWrite (bufferFromMemory (fun _ => 0) 8) (List.replicate 16 65)).1 =
      .fileReadonly := by
  refine ⟨rfl, by decide, by decide, by decide, by decide, by decide, by decide, by decide⟩

/-- C5, counterexample.  A file stream over descriptor 3: the first
close succeeds and zeroes the handle to the sentinel `-1`, but the
second close returns `SIO_SUCCESS` — `file_close` simply skips the
`close` syscall when the descriptor already is the sentinel
(`src/stream/file.c:269`) and falls through to `return SIO_SUCCESS`;
it never returns the already-closed error `SIO_ERROR_FILE_CLOSED`. -/
theorem claim_C5_counterexample :
    fileClose ⟨3, false, 0⟩ = (.success, ⟨-1, false, 0⟩) ∧
    fileClose ⟨-1, false, 0⟩ = (.success, ⟨-1, false, 0⟩) ∧
    Err.success ≠ Err.fileClosed := by
  refine ⟨by decide, by decide, by decide⟩

/-- C6, counterexample.  `sio_buffer_from_memory` sets
`capacity = size` to the caller-supplied length with no alignment
(`src/buf.c:201`): wrapping a 5-byte region yields capacity 5, which is
not a multiple of the platform word (8). -/
theorem claim_C6_counterexample :
    (bufferFromMemory (fun _ => 0) 5).capacity = 5 ∧
    (bufferFromMemory (fun _ => 0) 5).capacity % alignment ≠ 0 := by
  exact ⟨rfl, by decide⟩

/-- C7 (code bug).  A pool of 3 buffers with buffers 1 and 2 in use
(buffer 0 acquired and released again), resized to 2: the new count (2)
is not below the in-use count (2), so the resize succeeds — but
`sio_buffer_pool_resize` copies only the first
`copy_count = min(new_count, capacity)` slots and destroys every
buffer above them (`src/buf.c:806`), including the in-use buffer at
index 2, whose used flag disappears; `pool->size` still claims 2 in
use while only one used flag remains. -/
theorem claim_C7_bug :
    ((poolRelease
        (poolAcquire (poolAcquire (poolAcquire (poolCreate 3 16).2).2.1).2.1).2.1
        0).2.size = 2) ∧
    ((poolRelease
        (poolAcquire (poolAcquire (poolAcquire (poolCreate 3 16).2).2.1).2.1).2.1
        0).2.used_flags = [false, true, true]) ∧
    ((poolResize
        (poolRelease
          (poolAcquire (poolAcquire (poolAcquire (poolCreate 3 16).2).2.1).2.1).2.1
          0).2 2).1 = .success) ∧
    ((poolResize
        (poolRelease
          (poolAcquire (poolAcquire (poolAcquire (poolCreate 3 16).2).2.1).2.1).2.1
          0).2 2).2.used_flags = [false, true]) ∧
    ((poolResize
        (poolRelease
          (poolAcquire (poolAcquire (poolAcquire (poolCreate 3 16).2).2.1).2.1).2.1
          0).2 2).2.buffers.length = 2) ∧
    ((poolResize
        (poolRelease
          (poolAcquire (poolAcquire (poolAcquire (poolCreate 3 16).2).2.1).2.1).2.1
          0).2 2).2.size = 2) := by
  refine ⟨by decide, by decide, by decide, by decide, by decide, by decide⟩

/-- C8 (code bug).  A buffer memory-mapped read-only from a 16-byte
file accepts a 1-byte write: the read-only guard in `sio_buffer_write`
tests `is_mmap && !owns_memory` (`src/buf.c:462`), but
`sio_buffer_mmap_file` always sets `owns_memory = 1`
(`src/buf.c:216`), so the guard never fires for an mmap buffer and the
in-capacity write proceeds to `memcpy` into the read-only mapping and
returns success (on a real `PROT_READ` mapping this store faults); the
buffer's first byte, position — and hence its observable state —
change, and no `SIO_ERROR_FILE_READONLY` is reported. -/
theorem claim_C8_bug :
    (bufferMmapFile (List.replicate 16 0x41) true).owns_memory = true ∧
    (bufferMmapFile (List.replicate 16 0x41) true).is_mmap = true ∧
    (bufferWrite (bufferMmapFile (List.replicate 16 0x41) true) [0x5A]).1 =
      .success ∧
    (bufferWrite (bufferMmapFile (List.replicate 16 0x41) true) [0x5A]).1 ≠
      .fileReadonly ∧
    (bufferWrite (bufferMmapFile (List.replicate 16 0x41) true) [0x5A]).2.data 0 =
      0x5A ∧
    (bufferMmapFile (List.replicate 16 0x41) true).data 0 = 0x41 ∧
    (bufferWrite (bufferMmapFile (List.replicate 16 0x41) true) [0x5A]).2.position =
      1 := by
  refine ⟨rfl, rfl, by decide, by decide, by decide, by decide, by decide⟩

/-- The `DOALL` read loop never decreases `total_read`. -/
theorem doallReadLoop_le {σ : Type} (backend : σ → Nat → σ × Err × List UInt8)
    (nb : Bool) (size : Nat) :
    ∀ fuel (st : σ) total acc err,
      total ≤ (doallReadLoop backend nb size fuel st total acc err).2.1 := by
  intro fuel
  induction fuel with
  | zero => intro st total acc err; simp [doallReadLoop]
  | succ n ih =>
    intro st total acc err
    simp only [doallReadLoop]
    split
    · rcases hb : backend st (size - total) with ⟨st1, e, bs⟩
      dsimp only
      split
      · exact Nat.le_add_right _ _
      · split
        · exact Nat.le_add_right _ _
        · exact le_trans (Nat.le_add_right _ _) (ih st1 (total + bs.length) (acc ++ bs) e)
    · exact le_refl _

/-- If the `DOALL` read loop starting from `total_read = 0` ends with
`total_read = 0`, then it made exactly one backend call and returned
that call's error. -/
theorem doallReadLoop_zero {σ : Type} (backend : σ → Nat → σ × Err × List UInt8)
    (nb : Bool) (size : Nat) (fuel : Nat) (st : σ) (acc : List UInt8) (err : Err)
    (hsize : 0 < size) (hfuel : 0 < fuel)
    (h : (doallReadLoop backend nb size fuel st 0 acc err).2.1 = 0) :
    (doallReadLoop backend nb size fuel st 0 acc err).2.2.2 = (backend st size).2.1 := by
  obtain ⟨f, rfl⟩ : ∃ f, fuel = f + 1 := ⟨fuel - 1, by omega⟩
  rw [doallReadLoop, if_pos hsize, Nat.sub_zero] at h ⊢
  rcases hb : backend st size with ⟨st1, e, bs⟩
  rw [hb] at h
  dsimp only at h ⊢
  split at h
  case isTrue hcond =>
    rw [if_pos hcond]
  case isFalse hcond =>
    rw [not_or] at hcond
    rw [if_neg (by rw [not_or]; exact hcond)]
    exfalso
    split at h
    · dsimp only at h
      omega
    · have := doallReadLoop_le backend nb size f st1 (0 + bs.length) (acc ++ bs) e
      omega

/-- C1, as amended.  With `DOALL` set, whenever the loop of
`sio_stream_read` stops short — on end-of-stream, on any other backend
error, or on a zero-byte transfer — the call returns `SIO_ERROR_EOF`
(not success) together with the partial byte count in the
out-parameter if at least one byte was read in total; the backend's
error (in particular end-of-stream) is propagated unchanged only when
nothing was read at all, and success is returned exactly when the full
requested size was transferred. -/
theorem claim_C1 {σ : Type} (backend : σ → Nat → σ × Err × List UInt8)
    (st : σ) (size : Nat) (nb : Bool) (hsize : 0 < size) :
    (size ≤ (sioStreamRead backend st size ⟨true, nb⟩).2.2.1 →
      (sioStreamRead backend st size ⟨true, nb⟩).2.1 = .success) ∧
    (0 < (sioStreamRead backend st size ⟨true, nb⟩).2.2.1 →
      (sioStreamRead backend st size ⟨true, nb⟩).2.2.1 < size →
      (sioStreamRead backend st size ⟨true, nb⟩).2.1 = .eof) ∧
    ((sioStreamRead backend st size ⟨true, nb⟩).2.2.1 = 0 →
      (sioStreamRead backend st size ⟨true, nb⟩).2.1 = (backend st size).2.1) := by
  have hs0 : size ≠ 0 := by omega
  rcases hl : doallReadLoop backend nb size (size + 1) st 0 [] .success with
    ⟨st1, total, acc, err⟩
  have hread : sioStreamRead backend st size ⟨true, nb⟩ =
      if total < size then (st1, if total > 0 then .eof else err, total, acc)
      else (st1, .success, total, acc) := by
    simp only [sioStreamRead, if_neg hs0, hl]
    simp
  refine ⟨?_, ?_, ?_⟩
  · intro hge
    rw [hread] at hge ⊢
    by_cases hlt : total < size
    · exfalso
      rw [if_pos hlt] at hge
      dsimp only at hge
      omega
    · rw [if_neg hlt]
  · intro hpos hlt0
    rw [hread] at hpos hlt0 ⊢
    by_cases hlt : total < size
    · rw [if_pos hlt] at hpos ⊢
      dsimp only at hpos ⊢
      rw [if_pos hpos]
    · exfalso
      rw [if_neg hlt] at hlt0
      dsimp only at hlt0
      omega
  · intro hzero
    rw [hread] at hzero ⊢
    by_cases hlt : total < size
    · rw [if_pos hlt] at hzero ⊢
      dsimp only at hzero ⊢
      subst hzero
      rw [if_neg (by omega : ¬ (0 : Nat) > 0)]
      have hz :
          (doallReadLoop backend nb size (size + 1) st 0 [] .success).2.1 = 0 := by
        rw [hl]
      have := doallReadLoop_zero backend nb size (size + 1) st [] .success hsize
        (by omega) hz
      rw [hl] at this
      exact this
    · exfalso
      rw [if_neg hlt] at hzero
      dsimp only at hzero
      omega

/-- Witness for the amended C1 at a concrete input: the script delivers
one byte and then end-of-stream, the call requests two bytes. -/
theorem claim_C1_witness :
    0 < 2 ∧
    ((2 ≤ (sioStreamRead scriptReadBackend [(.success, [65]), (.eof, [])] 2
        ⟨true, false⟩).2.2.1 →
      (sioStreamRead scriptReadBackend [(.success, [65]), (.eof, [])] 2
        ⟨true, false⟩).2.1 = .success) ∧
    (0 < (sioStreamRead scriptReadBackend [(.success, [65]), (.eof, [])] 2
        ⟨true, false⟩).2.2.1 →
      (sioStreamRead scriptReadBackend [(.success, [65]), (.eof, [])] 2
        ⟨true, false⟩).2.2.1 < 2 →
      (sioStreamRead scriptReadBackend [(.success, [65]), (.eof, [])] 2
        ⟨true, false⟩).2.1 = .eof) ∧
    ((sioStreamRead scriptReadBackend [(.success, [65]), (.eof, [])] 2
        ⟨true, false⟩).2.2.1 = 0 →
      (sioStreamRead scriptReadBackend [(.success, [65]), (.eof, [])] 2
        ⟨true, false⟩).2.1 =
        (scriptReadBackend [(.success, [65]), (.eof, [])] 2).2.1)) :=
  ⟨by decide, claim_C1 scriptReadBackend [(.success, [65]), (.eof, [])] 2 false (by decide)⟩

/-- The `DOALL` write loop never decreases `total_written`. -/
theorem doallWriteLoop_le {σ : Type} (backend : σ → List UInt8 → σ × Err × Nat)
    (nb : Bool) (src : List UInt8) :
    ∀ fuel (st : σ) total err,
      total ≤ (doallWriteLoop backend nb src fuel st total err).2.1 := by
  intro fuel
  induction fuel with
  | zero => intro st total err; simp [doallWriteLoop]
  | succ n ih =>
    intro st total err
    simp only [doallWriteLoop]
    split
    · rcases hb : backend st (src.drop total) with ⟨st1, e, k⟩
      dsimp only
      split
      · exact Nat.le_add_right _ _
      · split
        · exact Nat.le_add_right _ _
        · exact le_trans (Nat.le_add_right _ _) (ih st1 (total + k) e)
    · exact le_refl _

/-- If the `DOALL` write loop starting from `total_written = 0` ends
with `total_written = 0`, then it made exactly one backend call and
returned that call's error. -/
theorem doallWriteLoop_zero {σ : Type} (backend : σ → List UInt8 → σ × Err × Nat)
    (nb : Bool) (src : List UInt8) (fuel : Nat) (st : σ) (err : Err)
    (hsize : 0 < src.length) (hfuel : 0 < fuel)
    (h : (doallWriteLoop backend nb src fuel st 0 err).2.1 = 0) :
    (doallWriteLoop backend nb src fuel st 0 err).2.2 = (backend st src).2.1 := by
  obtain ⟨f, rfl⟩ : ∃ f, fuel = f + 1 := ⟨fuel - 1, by omega⟩
  rw [doallWriteLoop, if_pos hsize, List.drop_zero] at h ⊢
  rcases hb : backend st src with ⟨st1, e, k⟩
  rw [hb] at h
  dsimp only at h ⊢
  split at h
  case isTrue hcond =>
    rw [if_pos hcond]
  case isFalse hcond =>
    rw [not_or] at hcond
    rw [if_neg (by rw [not_or]; exact hcond)]
    exfalso
    split at h
    · dsimp only at h
      omega
    · have := doallWriteLoop_le backend nb src f st1 (0 + k) e
      omega

/-- C2, as amended.  With `DOALL` set and `DOALL_NONBLOCK` clear,
whenever the loop of `sio_stream_write` stops short — on a backend
error, would-block, or a zero-byte transfer — the call returns
`SIO_ERROR_IO` (not success) together with the short count in the
out-parameter if at least one byte was written; only when the loop made
no progress at all is the backend's own error (for example would-block)
propagated unchanged, and success is returned exactly when everything
was written. -/
theorem claim_C2 {σ : Type} (backend : σ → List UInt8 → σ × Err × Nat)
    (st : σ) (src : List UInt8) (hsize : 0 < src.length) :
    (src.length ≤ (sioStreamWrite backend st src ⟨true, false⟩).2.2 →
      (sioStreamWrite backend st src ⟨true, false⟩).2.1 = .success) ∧
    (0 < (sioStreamWrite backend st src ⟨true, false⟩).2.2 →
      (sioStreamWrite backend st src ⟨true, false⟩).2.2 < src.length →
      (sioStreamWrite backend st src ⟨true, false⟩).2.1 = .ioErr) ∧
    ((sioStreamWrite backend st src ⟨true, false⟩).2.2 = 0 →
      (sioStreamWrite backend st src ⟨true, false⟩).2.1 = (backend st src).2.1) := by
  have hs0 : src.length ≠ 0 := by omega
  rcases hl : doallWriteLoop backend false src (src.length + 1) st 0 .success with
    ⟨st1, total, err⟩
  have hwrite : sioStreamWrite backend st src ⟨true, false⟩ =
      if total < src.length then (st1, if total > 0 then .ioErr else err, total)
      else (st1, .success, total) := by
    simp only [sioStreamWrite, if_neg hs0, hl]
    simp
  refine ⟨?_, ?_, ?_⟩
  · intro hge
    rw [hwrite] at hge ⊢
    by_cases hlt : total < src.length
    · exfalso
      rw [if_pos hlt] at hge
      dsimp only at hge
      omega
    · rw [if_neg hlt]
  · intro hpos hlt0
    rw [hwrite] at hpos hlt0 ⊢
    by_cases hlt : total < src.length
    · rw [if_pos hlt] at hpos ⊢
      dsimp only at hpos ⊢
      rw [if_pos hpos]
    · exfalso
      rw [if_neg hlt] at hlt0
      dsimp only at hlt0
      omega
  · intro hzero
    rw [hwrite] at hzero ⊢
    by_cases hlt : total < src.length
    · rw [if_pos hlt] at hzero ⊢
      dsimp only at hzero ⊢
      subst hzero
      rw [if_neg (by omega : ¬ (0 : Nat) > 0)]
      have hz :
          (doallWriteLoop backend false src (src.length + 1) st 0 .success).2.1 = 0 := by
        rw [hl]
      have := doallWriteLoop_zero backend false src (src.length + 1) st .success hsize
        (by omega) hz
      rw [hl] at this
      exact this
    · exfalso
      rw [if_neg hlt] at hzero
      dsimp only at hzero
      omega

/-- Witness for the amended C2 at a concrete input: the script writes
one byte and then reports would-block, the call submits two bytes. -/
theorem claim_C2_witness :
    0 < ([65, 66] : List UInt8).length ∧
    ((([65, 66] : List UInt8).length ≤
        (sioStreamWrite scriptWriteBackend [(.success, 1), (.wouldblock, 0)] [65, 66]
          ⟨true, false⟩).2.2 →
      (sioStreamWrite scriptWriteBackend [(.success, 1), (.wouldblock, 0)] [65, 66]
          ⟨true, false⟩).2.1 = .success) ∧
    (0 < (sioStreamWrite scriptWriteBackend [(.success, 1), (.wouldblock, 0)] [65, 66]
          ⟨true, false⟩).2.2 →
      (sioStreamWrite scriptWriteBackend [(.success, 1), (.wouldblock, 0)] [65, 66]
          ⟨true, false⟩).2.2 < ([65, 66] : List UInt8).length →
      (sioStreamWrite scriptWriteBackend [(.success, 1), (.wouldblock, 0)] [65, 66]
          ⟨true, false⟩).2.1 = .ioErr) ∧
    ((sioStreamWrite scriptWriteBackend [(.success, 1), (.wouldblock, 0)] [65, 66]
          ⟨true, false⟩).2.2 = 0 →
      (sioStreamWrite scriptWriteBackend [(.success, 1), (.wouldblock, 0)] [65, 66]
          ⟨true, false⟩).2.1 =
        (scriptWriteBackend [(.success, 1), (.wouldblock, 0)] [65, 66]).2.1)) :=
  ⟨by decide,
    claim_C2 scriptWriteBackend [(.success, 1), (.wouldblock, 0)] [65, 66] (by decide)⟩

/-- C5, as amended.  For the file, timer and raw-memory backends: a
first close of an open stream succeeds and stores the invalid sentinel
into the native handle (`-1` for descriptors, `NULL` for the raw-memory
pointer); a second close of the same stream is a no-op that again
returns success — it does not return the already-closed error. -/
theorem claim_C5 :
    (∀ s : FileStorage, 0 ≤ s.fd →
      (fileClose s).1 = .success ∧ (fileClose s).2.fd = -1 ∧
      fileClose (fileClose s).2 = (.success, (fileClose s).2)) ∧
    (∀ s : TimerStorage, 0 ≤ s.fd →
      (timerClose s).1 = .success ∧ (timerClose s).2.fd = -1 ∧
      timerClose (timerClose s).2 = (.success, (timerClose s).2)) ∧
    (∀ s : RawmemStorage,
      (rawmemClose s).1 = .success ∧ (rawmemClose s).2.data_present = false ∧
      rawmemClose (rawmemClose s).2 = (.success, (rawmemClose s).2)) := by
  refine ⟨?_, ?_, ?_⟩
  · intro s hfd
    have h1 : fileClose s =
        (.success, { fd := -1, mmap_data := false, mmap_size := if s.mmap_data then 0 else s.mmap_size }) := by
      rw [fileClose]
      rw [if_pos hfd]
      by_cases hm : s.mmap_data
      · rw [if_pos hm]
        simp [hm]
      · rw [if_neg hm]
        simp at hm
        simp [hm]
    rw [h1]
    refine ⟨rfl, rfl, ?_⟩
    rw [fileClose]
    norm_num
  · intro s hfd
    have h1 : timerClose s = (.success, { fd := -1 }) := by
      rw [timerClose, if_pos hfd]
    rw [h1]
    refine ⟨rfl, rfl, ?_⟩
    rw [timerClose]
    norm_num
  · intro s
    exact ⟨rfl, rfl, rfl⟩

/-- Witness for the amended C5 at concrete inputs: descriptor 3 for the
file and timer streams, a present 16-byte region for the raw-memory
stream. -/
theorem claim_C5_witness :
    (0 ≤ (3 : Int) ∧
      ((fileClose ⟨3, false, 0⟩).1 = .success ∧ (fileClose ⟨3, false, 0⟩).2.fd = -1 ∧
        fileClose (fileClose ⟨3, false, 0⟩).2 = (.success, (fileClose ⟨3, false, 0⟩).2))) ∧
    (0 ≤ (3 : Int) ∧
      ((timerClose ⟨3⟩).1 = .success ∧ (timerClose ⟨3⟩).2.fd = -1 ∧
        timerClose (timerClose ⟨3⟩).2 = (.success, (timerClose ⟨3⟩).2))) ∧
    ((rawmemClose ⟨true, 16, 0⟩).1 = .success ∧
      (rawmemClose ⟨true, 16, 0⟩).2.data_present = false ∧
      rawmemClose (rawmemClose ⟨true, 16, 0⟩).2 = (.success, (rawmemClose ⟨true, 16, 0⟩).2)) :=
  ⟨⟨by decide, claim_C5.1 ⟨3, false, 0⟩ (by decide)⟩,
   ⟨by decide, claim_C5.2.1 ⟨3⟩ (by decide)⟩,
   claim_C5.2.2 ⟨true, 16, 0⟩⟩

/-- The alignment helper returns a multiple of the platform word. -/
theorem alignSize_mod (n : Nat) : alignSize n % alignment = 0 := by
  unfold alignSize alignment
  omega

/-- The alignment helper never rounds down. -/
theorem alignSize_ge (n : Nat) : n ≤ alignSize n := by
  unfold alignSize alignment
  omega

/-- The growth calculation always returns at least the requested
minimum (by the final clamp of `sio_calculate_new_capacity`). -/
theorem calculateNewCapacity_ge (b : Buffer) (min_capacity : Nat) :
    min_capacity ≤ calculateNewCapacity b min_capacity := by
  unfold calculateNewCapacity
  dsimp only
  split <;> omega

/-- A non-owning or memory-mapped buffer refuses `sio_buffer_resize`
with the read-only error, unchanged. -/
theorem bufferResize_fail (b : Buffer) (n : Nat)
    (h : (!b.owns_memory || b.is_mmap) = true) :
    bufferResize b n = (.fileReadonly, b) := by
  unfold bufferResize
  rw [if_pos h]

/-- An owning, non-mapped buffer is resized successfully; when the new
capacity is not below the current size, the size and position are
untouched. -/
theorem bufferResize_ok (b : Buffer) (n : Nat) (how : b.owns_memory = true)
    (hmm : b.is_mmap = false) (hsz : b.size ≤ alignSize n) :
    bufferResize b n =
      (.success,
        { b with
          data := fun i => if i < min b.size (alignSize n) then b.data i else 0
          capacity := alignSize n }) := by
  unfold bufferResize
  rw [how, hmm]
  rw [if_neg (by decide : ¬ ((!true || false) = true))]
  dsimp only
  rw [if_neg (by omega : ¬ alignSize n < b.size)]

/-- `sio_buffer_resize` preserves the buffer invariant. -/
theorem bufInv_resize (b : Buffer) (n : Nat) (h : BufInv b) :
    BufInv (bufferResize b n).2 := by
  obtain ⟨h1, h2⟩ := h
  unfold BufInv bufferResize
  split
  · exact ⟨h1, h2⟩
  · dsimp only
    by_cases hc : alignSize n < b.size
    · rw [if_pos hc]
      by_cases hp : b.position > alignSize n
      · rw [if_pos hp]
        try dsimp only
        omega
      · rw [if_neg hp]
        try dsimp only
        omega
    · rw [if_neg hc]
      dsimp only
      omega

/-- A successful `sio_buffer_resize` leaves the capacity aligned. -/
theorem bufferResize_success_aligned (b : Buffer) (n : Nat)
    (h : (bufferResize b n).1 = .success) :
    (bufferResize b n).2.capacity % alignment = 0 := by
  unfold bufferResize at h ⊢
  by_cases hro : (!b.owns_memory || b.is_mmap) = true
  · rw [if_pos hro] at h
    exact absurd h (by simp)
  · rw [if_neg hro]
    dsimp only
    by_cases hc : alignSize n < b.size
    · rw [if_pos hc]
      by_cases hp : b.position > alignSize n
      · rw [if_pos hp]
        dsimp only
        exact alignSize_mod n
      · rw [if_neg hp]
        dsimp only
        exact alignSize_mod n
    · rw [if_neg hc]
      dsimp only
      exact alignSize_mod n

/-- `sio_buffer_write` preserves the buffer invariant. -/
theorem bufInv_write (b : Buffer) (src : List UInt8) (h : BufInv b) :
    BufInv (bufferWrite b src).2 := by
  obtain ⟨h1, h2⟩ := h
  have hge1 := calculateNewCapacity_ge b (b.position + src.length)
  have hge2 := alignSize_ge (calculateNewCapacity b (b.position + src.length))
  unfold BufInv bufferWrite
  split
  · exact ⟨h1, h2⟩
  · dsimp only
    rw [if_neg (by omega : ¬ b.position + src.length < b.position)]
    by_cases hg : b.position + src.length > b.capacity
    · rw [if_pos hg]
      by_cases hro : (!b.owns_memory || b.is_mmap) = true
      · rw [bufferResize_fail b _ hro]
        dsimp only
        rw [if_pos (by decide : Err.fileReadonly ≠ Err.success)]
        exact ⟨h1, h2⟩
      · have how : b.owns_memory = true := by
          revert hro; cases b.owns_memory <;> simp
        have hmm : b.is_mmap = false := by
          revert hro; cases b.is_mmap <;> simp
        rw [bufferResize_ok b _ how hmm (by omega)]
        dsimp only
        rw [if_neg (by simp : ¬ (Err.success ≠ Err.success))]
        dsimp only
        by_cases hl : src.length > 0
        · rw [if_pos hl]
          dsimp only
          by_cases hps : b.position + src.length > b.size
          · rw [if_pos hps]
            dsimp only
            omega
          · rw [if_neg hps]
            dsimp only
            omega
        · rw [if_neg hl]
          dsimp only
          rw [if_neg (by omega : ¬ b.position > b.size)]
          try dsimp only
          omega
    · rw [if_neg hg]
      dsimp only
      rw [if_neg (by simp : ¬ (Err.success ≠ Err.success))]
      dsimp only
      by_cases hl : src.length > 0
      · rw [if_pos hl]
        dsimp only
        by_cases hps : b.position + src.length > b.size
        · rw [if_pos hps]
          try dsimp only
          omega
        · rw [if_neg hps]
          try dsimp only
          omega
      · rw [if_neg hl]
        try dsimp only
        rw [if_neg (by omega : ¬ b.position > b.size)]
        try dsimp only
        omega

/-- `sio_buffer_read` preserves the buffer invariant. -/
theorem bufInv_read (b : Buffer) (n : Nat) (h : BufInv b) :
    BufInv (bufferRead b n).2.1 := by
  obtain ⟨h1, h2⟩ := h
  unfold BufInv bufferRead
  try dsimp only
  constructor
  all_goals repeat' split
  all_goals try dsimp only
  all_goals omega

/-- `sio_buffer_seek` preserves the buffer invariant. -/
theorem bufInv_seek (b : Buffer) (p : Nat) (h : BufInv b) :
    BufInv (bufferSeek b p).2 := by
  obtain ⟨h1, h2⟩ := h
  unfold BufInv bufferSeek
  split
  · exact ⟨h1, h2⟩
  · dsimp only
    omega

/-- `sio_buffer_seek_relative` preserves the buffer invariant. -/
theorem bufInv_seekRelative (b : Buffer) (off : Int) (h : BufInv b) :
    BufInv (bufferSeekRelative b off).2 := by
  obtain ⟨h1, h2⟩ := h
  unfold BufInv bufferSeekRelative
  split
  · split
    · exact ⟨h1, h2⟩
    · dsimp only
      omega
  · dsimp only
    split
    · exact ⟨h1, h2⟩
    · dsimp only
      omega

/-- `sio_buffer_clear` preserves the buffer invariant. -/
theorem bufInv_clear (b : Buffer) (h : BufInv b) :
    BufInv (bufferClear b) := by
  unfold BufInv bufferClear
  dsimp only
  omega

/-- `sio_buffer_reserve` preserves the buffer invariant. -/
theorem bufInv_reserve (b : Buffer) (ac : Nat) (h : BufInv b) :
    BufInv (bufferReserve b ac).2 := by
  unfold bufferReserve
  split
  · exact h
  · dsimp only
    split
    · exact h
    · exact bufInv_resize b _ h

/-- `sio_buffer_ensure_capacity` preserves the buffer invariant; on
success the capacity is at least the requested minimum and the size and
position are untouched; on failure the buffer is unchanged. -/
theorem bufferEnsureCapacity_spec (b : Buffer) (mc : Nat) (h : BufInv b) :
    BufInv (bufferEnsureCapacity b mc).2 ∧
    ((bufferEnsureCapacity b mc).1 = .success →
      mc ≤ (bufferEnsureCapacity b mc).2.capacity ∧
      (bufferEnsureCapacity b mc).2.size = b.size ∧
      (bufferEnsureCapacity b mc).2.position = b.position) ∧
    ((bufferEnsureCapacity b mc).1 ≠ .success → (bufferEnsureCapacity b mc).2 = b) := by
  obtain ⟨h1, h2⟩ := h
  unfold bufferEnsureCapacity
  by_cases hc : b.capacity ≥ mc
  · rw [if_pos hc]
    exact ⟨⟨h1, h2⟩, fun _ => ⟨hc, rfl, rfl⟩, fun hne => absurd rfl hne⟩
  · rw [if_neg hc]
    by_cases hro : (!b.owns_memory || b.is_mmap) = true
    · rw [bufferResize_fail b _ hro]
      refine ⟨⟨h1, h2⟩, fun hs => absurd hs (by simp), fun _ => rfl⟩
    · have how : b.owns_memory = true := by
        revert hro; cases b.owns_memory <;> simp
      have hmm : b.is_mmap = false := by
        revert hro; cases b.is_mmap <;> simp
      have hal := alignSize_ge mc
      rw [bufferResize_ok b mc how hmm (by omega)]
      refine ⟨⟨by dsimp only; omega, by dsimp only; omega⟩,
        fun _ => ⟨by dsimp only; omega, rfl, rfl⟩,
        fun hne => absurd rfl hne⟩

/-- `sio_buffer_shrink_to_fit` preserves the buffer invariant. -/
theorem bufInv_shrinkToFit (b : Buffer) (h : BufInv b) :
    BufInv (bufferShrinkToFit b).2 := by
  unfold bufferShrinkToFit
  split
  · exact h
  · split
    · exact h
    · exact bufInv_resize b _ h

/-- The buffer-stream `truncate` preserves the buffer invariant. -/
theorem bufInv_truncate (w : Bool) (b : Buffer) (n : Nat) (h : BufInv b) :
    BufInv (streamBufferTruncate w b n).2 := by
  obtain ⟨h1, h2⟩ := h
  unfold streamBufferTruncate
  split
  · exact ⟨h1, h2⟩
  · split
    · rename_i hlt
      dsimp only
      by_cases hp : b.position > n
      · rw [if_pos hp]
        dsimp only
        split
        · exact bufInv_shrinkToFit _ ⟨by dsimp only; omega, by dsimp only; omega⟩
        · exact ⟨by dsimp only; omega, by dsimp only; omega⟩
      · rw [if_neg hp]
        dsimp only
        split
        · exact bufInv_shrinkToFit _ ⟨by dsimp only; omega, by dsimp only; omega⟩
        · exact ⟨by dsimp only; omega, by dsimp only; omega⟩
    · split
      · rename_i hgt
        obtain ⟨hi, hs, hf⟩ := bufferEnsureCapacity_spec b n ⟨h1, h2⟩
        dsimp only
        split
        · rename_i hne
          exact hi
        · rename_i hne
          have hsucc : (bufferEnsureCapacity b n).1 = .success := by
            by_contra hc
            exact hne hc
          obtain ⟨hc1, hc2, hc3⟩ := hs hsucc
          try dsimp only
          split
          · exact ⟨by dsimp only; omega, by dsimp only; omega⟩
          · exact hi
      · exact ⟨h1, h2⟩

/-- C6, as amended.  The ordering invariant
`0 ≤ position ≤ size ≤ capacity` holds for every buffer produced by the
constructors (`create`, `create_ex`, `from_memory`, `mmap_file`) and is
preserved by every buffer operation, successful or failed (`write`,
`read`, `seek`, `seek_relative`, `resize`, `reserve`,
`ensure_capacity`, `shrink_to_fit`, `clear`, and `truncate` via the
buffer stream).  The capacity is word-aligned for buffers allocated by
`create`/`create_ex` and after every successful `resize` (hence after
every in-place growth); `from_memory` and `mmap_file`, however, set the
capacity to the caller-supplied length / the file length, which need
not be aligned. -/
theorem claim_C6 :
    (∀ ic strat factor, BufInv (bufferCreateEx ic strat factor) ∧
      (bufferCreateEx ic strat factor).capacity % alignment = 0) ∧
    (∀ ic, BufInv (bufferCreate ic) ∧ (bufferCreate ic).capacity % alignment = 0) ∧
    (∀ mem n, BufInv (bufferFromMemory mem n)) ∧
    (∀ file ro, BufInv (bufferMmapFile file ro)) ∧
    (∀ b src, BufInv b → BufInv (bufferWrite b src).2) ∧
    (∀ b n, BufInv b → BufInv (bufferRead b n).2.1) ∧
    (∀ b p, BufInv b → BufInv (bufferSeek b p).2) ∧
    (∀ b off, BufInv b → BufInv (bufferSeekRelative b off).2) ∧
    (∀ b n, BufInv b → BufInv (bufferResize b n).2) ∧
    (∀ b n, (bufferResize b n).1 = .success →
      (bufferResize b n).2.capacity % alignment = 0) ∧
    (∀ b ac, BufInv b → BufInv (bufferReserve b ac).2) ∧
    (∀ b mc, BufInv b → BufInv (bufferEnsureCapacity b mc).2) ∧
    (∀ b, BufInv b → BufInv (bufferShrinkToFit b).2) ∧
    (∀ b, BufInv b → BufInv (bufferClear b)) ∧
    (∀ w b n, BufInv b → BufInv (streamBufferTruncate w b n).2) := by
  refine ⟨?_, ?_, ?_, ?_, ?_, ?_, ?_, ?_, ?_, ?_, ?_, ?_, ?_, ?_, ?_⟩
  · intro ic strat factor
    constructor
    · exact ⟨le_refl _, by unfold bufferCreateEx; dsimp only; omega⟩
    · unfold bufferCreateEx
      dsimp only
      exact alignSize_mod _
  · intro ic
    constructor
    · exact ⟨le_refl _, by unfold bufferCreate bufferCreateEx; dsimp only; omega⟩
    · unfold bufferCreate bufferCreateEx
      dsimp only
      exact alignSize_mod _
  · intro mem n
    exact ⟨by dsimp only [bufferFromMemory]; omega, by dsimp only [bufferFromMemory]; omega⟩
  · intro file ro
    exact ⟨by dsimp only [bufferMmapFile]; omega, by dsimp only [bufferMmapFile]; omega⟩
  · exact fun b src h => bufInv_write b src h
  · exact fun b n h => bufInv_read b n h
  · exact fun b p h => bufInv_seek b p h
  · exact fun b off h => bufInv_seekRelative b off h
  · exact fun b n h => bufInv_resize b n h
  · exact fun b n h => bufferResize_success_aligned b n h
  · exact fun b ac h => bufInv_reserve b ac h
  · exact fun b mc h => (bufferEnsureCapacity_spec b mc h).1
  · exact fun b h => bufInv_shrinkToFit b h
  · exact fun b h => bufInv_clear b h
  · exact fun w b n h => bufInv_truncate w b n h

/-- Witness for the amended C6 at concrete inputs: a freshly created
buffer satisfies the invariant with aligned capacity, and the invariant
survives a concrete write. -/
theorem claim_C6_witness :
    (BufInv (bufferCreate 16) ∧ (bufferCreate 16).capacity % alignment = 0) ∧
    BufInv (bufferWrite (bufferCreate 16) [1, 2, 3]).2 ∧
    BufInv (bufferFromMemory (fun _ => 0) 5) :=
  ⟨claim_C6.2.1 16,
   claim_C6.2.2.2.2.1 (bufferCreate 16) [1, 2, 3] (claim_C6.2.1 16).1,
   claim_C6.2.2.1 (fun _ => 0) 5⟩

/-- Success specification of `sio_buffer_write` on an owning,
non-mapped buffer: the write succeeds, advances the position by the
written length, raises the size to cover the written region, and stores
the source bytes at the old position. -/
theorem bufferWrite_ok (b : Buffer) (src : List UInt8) (h : BufInv b)
    (how : b.owns_memory = true) (hmm : b.is_mmap = false) :
    (bufferWrite b src).1 = .success ∧
    (bufferWrite b src).2.position = b.position + src.length ∧
    (bufferWrite b src).2.size = max b.size (b.position + src.length) ∧
    (∀ i, b.position ≤ i → i < b.position + src.length →
      (bufferWrite b src).2.data i = src.getD (i - b.position) 0) := by
  obtain ⟨h1, h2⟩ := h
  have hge1 := calculateNewCapacity_ge b (b.position + src.length)
  have hge2 := alignSize_ge (calculateNewCapacity b (b.position + src.length))
  unfold bufferWrite
  rw [hmm, how]
  rw [if_neg (by decide : ¬ ((false && !true) = true))]
  dsimp only
  rw [if_neg (by omega : ¬ b.position + src.length < b.position)]
  by_cases hg : b.position + src.length > b.capacity
  · rw [if_pos hg]
    rw [bufferResize_ok b _ how hmm (by omega)]
    dsimp only
    rw [if_neg (by simp : ¬ (Err.success ≠ Err.success))]
    dsimp only
    by_cases hl : src.length > 0
    · rw [if_pos hl]
      dsimp only
      by_cases hps : b.position + src.length > b.size
      · rw [if_pos hps]
        refine ⟨rfl, rfl, by dsimp only; omega, ?_⟩
        intro i hi1 hi2
        dsimp only
        rw [if_pos ⟨hi1, hi2⟩]
      · rw [if_neg hps]
        refine ⟨rfl, rfl, by dsimp only; omega, ?_⟩
        intro i hi1 hi2
        dsimp only
        rw [if_pos ⟨hi1, hi2⟩]
    · rw [if_neg hl]
      try dsimp only
      rw [if_neg (by omega : ¬ b.position > b.size)]
      refine ⟨rfl, by (try dsimp only); omega, by (try dsimp only); omega, ?_⟩
      intro i hi1 hi2
      exact absurd hi2 (by omega)
  · rw [if_neg hg]
    dsimp only
    rw [if_neg (by simp : ¬ (Err.success ≠ Err.success))]
    dsimp only
    by_cases hl : src.length > 0
    · rw [if_pos hl]
      dsimp only
      by_cases hps : b.position + src.length > b.size
      · rw [if_pos hps]
        refine ⟨rfl, rfl, by dsimp only; omega, ?_⟩
        intro i hi1 hi2
        dsimp only
        rw [if_pos ⟨hi1, hi2⟩]
      · rw [if_neg hps]
        refine ⟨rfl, rfl, by dsimp only; omega, ?_⟩
        intro i hi1 hi2
        dsimp only
        rw [if_pos ⟨hi1, hi2⟩]
    · rw [if_neg hl]
      try dsimp only
      rw [if_neg (by omega : ¬ b.position > b.size)]
      refine ⟨rfl, by (try dsimp only); omega, by (try dsimp only); omega, ?_⟩
      intro i hi1 hi2
      exact absurd hi2 (by omega)

/-- Reading a list back from its own indices reproduces the list. -/
theorem range_map_getD (l : List α) (d : α) :
    (List.range l.length).map (fun i => l.getD i d) = l := by
  apply List.ext_getElem
  · simp
  · intro i h1 h2
    simp only [List.getElem_map, List.getElem_range, List.getD]
    rw [List.get?_eq_getElem?, List.getElem?_eq_getElem h2]
    rfl

/-- C10.  On a growable buffer (owning its memory, not memory-mapped,
with a growth strategy other than `FIXED`) whose cursor is at the
start, writing `n` bytes, seeking back to position 0 and reading `n`
bytes succeeds at every step and returns exactly the bytes written. -/
theorem claim_C10 (b : Buffer) (src : List UInt8) (h : BufInv b)
    (how : b.owns_memory = true) (hmm : b.is_mmap = false)
    (hstrat : b.growth_strategy ≠ .fixed) (hpos : b.position = 0) :
    (bufferWrite b src).1 = .success ∧
    (bufferSeek (bufferWrite b src).2 0).1 = .success ∧
    (bufferRead (bufferSeek (bufferWrite b src).2 0).2 src.length).1 = .success ∧
    (bufferRead (bufferSeek (bufferWrite b src).2 0).2 src.length).2.2 = src := by
  obtain ⟨hsucc, hpos', hsize', hdata⟩ := bufferWrite_ok b src h how hmm
  have hlen : src.length ≤ (bufferWrite b src).2.size := by
    rw [hsize', hpos]; omega
  have hs1 : bufferSeek (bufferWrite b src).2 0 =
      (.success, { (bufferWrite b src).2 with position := 0 }) := by
    unfold bufferSeek
    rw [if_neg (by omega : ¬ (0 : Nat) > (bufferWrite b src).2.size)]
  refine ⟨hsucc, by rw [hs1], ?_, ?_⟩
  · rw [hs1]
    unfold bufferRead
    dsimp only
    rw [show (if src.length < (bufferWrite b src).2.size - 0 then src.length
        else (bufferWrite b src).2.size - 0) = src.length from by split <;> omega]
    rw [if_neg (by omega : ¬ src.length < src.length)]
  · rw [hs1]
    unfold bufferRead
    dsimp only
    rw [show (if src.length < (bufferWrite b src).2.size - 0 then src.length
        else (bufferWrite b src).2.size - 0) = src.length from by split <;> omega]
    have hmap : (List.range src.length).map
        (fun i => (bufferWrite b src).2.data (0 + i)) =
        (List.range src.length).map (fun i => src.getD i 0) := by
      apply List.map_congr_left
      intro i hi
      rw [List.mem_range] at hi
      have := hdata i (by omega) (by omega)
      rw [Nat.zero_add]
      rw [hpos] at this
      simpa using this
    rw [hmap, range_map_getD]

/-- Witness for C10 at a concrete input: a default-strategy buffer of
capacity 16, writing the three bytes `[1, 2, 3]`. -/
theorem claim_C10_witness :
    BufInv (bufferCreate 16) ∧ (bufferCreate 16).owns_memory = true ∧
    (bufferCreate 16).is_mmap = false ∧
    (bufferCreate 16).growth_strategy ≠ .fixed ∧ (bufferCreate 16).position = 0 ∧
    ((bufferWrite (bufferCreate 16) [1, 2, 3]).1 = .success ∧
      (bufferSeek (bufferWrite (bufferCreate 16) [1, 2, 3]).2 0).1 = .success ∧
      (bufferRead (bufferSeek (bufferWrite (bufferCreate 16) [1, 2, 3]).2 0).2
        ([1, 2, 3] : List UInt8).length).1 = .success ∧
      (bufferRead (bufferSeek (bufferWrite (bufferCreate 16) [1, 2, 3]).2 0).2
        ([1, 2, 3] : List UInt8).length).2.2 = [1, 2, 3]) :=
  ⟨by decide, rfl, rfl, by decide, rfl,
    claim_C10 (bufferCreate 16) [1, 2, 3] (by decide) rfl rfl (by decide) rfl⟩

/-- The digit characters map back to their values. -/
theorem charToDigit_digitChar (d : Nat) (h : d < 16) :
    charToDigit? (Nat.digitChar d) = some d := by
  interval_cases d <;> rfl

/-- A digit character below the base is accepted by `isDigitB`. -/
theorem isDigitB_digitChar (base d : Nat) (hd : d < base) (hb : base ≤ 16) :
    isDigitB base (Nat.digitChar d) = true := by
  unfold isDigitB
  rw [charToDigit_digitChar d (by omega)]
  exact decide_eq_true hd

/-- The rendering of a natural number is never empty. -/
theorem natToBaseAux_ne_nil (base fuel n : Nat) (h : 0 < fuel) :
    natToBaseAux base fuel n ≠ [] := by
  obtain ⟨f, rfl⟩ : ∃ f, fuel = f + 1 := ⟨fuel - 1, by omega⟩
  rw [natToBaseAux]
  split
  · exact List.cons_ne_nil _ _
  · exact List.append_ne_nil_of_right_ne_nil _ (List.cons_ne_nil _ _)

/-- Every character of a rendered numeral is a digit of the base. -/
theorem mem_natToBaseAux (base : Nat) (hb2 : 2 ≤ base) (hb16 : base ≤ 16) :
    ∀ fuel n c, n < fuel → c ∈ natToBaseAux base fuel n → isDigitB base c = true := by
  intro fuel
  induction fuel with
  | zero => intro n c hn; omega
  | succ f ih =>
    intro n c hn hc
    rw [natToBaseAux] at hc
    split at hc
    · rw [List.mem_singleton] at hc
      subst hc
      exact isDigitB_digitChar base n (by omega) hb16
    · rw [List.mem_append, List.mem_singleton] at hc
      rcases hc with hc | hc
      · rename_i hge
        exact ih (n / base) c (by
          have h0 : 0 < n := by omega
          have := Nat.div_lt_self h0 (by omega : 1 < base)
          omega) hc
      · subst hc
        exact isDigitB_digitChar base (n % base) (Nat.mod_lt n (by omega)) hb16

/-- Value of a digit string with one more digit appended. -/
theorem valBase_append (base : Nat) (l : List Char) (c : Char) :
    valBase base (l ++ [c]) = valBase base l * base + (charToDigit? c).getD 0 := by
  unfold valBase
  rw [List.foldl_append]
  rfl

/-- The rendered numeral evaluates back to the number. -/
theorem valBase_natToBaseAux (base : Nat) (hb2 : 2 ≤ base) (hb16 : base ≤ 16) :
    ∀ fuel n, n < fuel → valBase base (natToBaseAux base fuel n) = n := by
  intro fuel
  induction fuel with
  | zero => intro n hn; omega
  | succ f ih =>
    intro n hn
    rw [natToBaseAux]
    split
    · rename_i hlt
      show valBase base [Nat.digitChar n] = n
      unfold valBase
      rw [List.foldl_cons, List.foldl_nil]
      rw [charToDigit_digitChar n (by omega)]
      simp
    · rename_i hge
      rw [valBase_append]
      rw [ih (n / base) (by
        have h0 : 0 < n := by omega
        have := Nat.div_lt_self h0 (by omega : 1 < base)
        omega)]
      rw [charToDigit_digitChar (n % base) (by
        have := Nat.mod_lt n (show 0 < base by omega)
        omega)]
      show n / base * base + n % base = n
      rw [Nat.mul_comm (n / base) base]
      exact Nat.div_add_mod n base

/-- Parsing the rendered numeral returns the number. -/
theorem parseBase_natToBaseAux (base : Nat) (hb2 : 2 ≤ base) (hb16 : base ≤ 16)
    (fuel n : Nat) (hn : n < fuel) :
    parseBase? base (natToBaseAux base fuel n) = some n := by
  unfold parseBase?
  rw [if_neg (by
    rw [List.isEmpty_iff]
    exact natToBaseAux_ne_nil base fuel n (by omega))]
  rw [if_pos (by
    rw [List.all_eq_true]
    intro c hc
    exact mem_natToBaseAux base hb2 hb16 fuel n c hn hc)]
  rw [valBase_natToBaseAux base hb2 hb16 fuel n hn]

/-- Decimal round-trip. -/
theorem parseBase_natToDec (n : Nat) : parseBase? 10 (natToDec n) = some n :=
  parseBase_natToBaseAux 10 (by omega) (by omega) (n + 1) n (by omega)

/-- Hexadecimal round-trip. -/
theorem parseBase_natToHex (n : Nat) : parseBase? 16 (natToHex n) = some n :=
  parseBase_natToBaseAux 16 (by omega) (by omega) (n + 1) n (by omega)

/-- Every character of a decimal numeral is a decimal digit. -/
theorem mem_natToDec (n : Nat) (c : Char) (hc : c ∈ natToDec n) :
    isDigitB 10 c = true :=
  mem_natToBaseAux 10 (by omega) (by omega) (n + 1) n c (by omega) hc

/-- Every character of a hexadecimal numeral is a hexadecimal digit. -/
theorem mem_natToHex (n : Nat) (c : Char) (hc : c ∈ natToHex n) :
    isDigitB 16 c = true :=
  mem_natToBaseAux 16 (by omega) (by omega) (n + 1) n c (by omega) hc

/-- A character that is not a decimal digit does not occur in a decimal
numeral. -/
theorem not_mem_natToDec (n : Nat) (c : Char) (hc : isDigitB 10 c = false) :
    c ∉ natToDec n := fun hmem => by
  rw [mem_natToDec n c hmem] at hc
  exact absurd hc (by simp)

/-- A character that is not a hexadecimal digit does not occur in a
hexadecimal numeral. -/
theorem not_mem_natToHex (n : Nat) (c : Char) (hc : isDigitB 16 c = false) :
    c ∉ natToHex n := fun hmem => by
  rw [mem_natToHex n c hmem] at hc
  exact absurd hc (by simp)

/-- A decimal numeral is a non-empty string starting with a digit. -/
theorem natToDec_cons (n : Nat) :
    ∃ c cs, natToDec n = c :: cs ∧ isDigitB 10 c = true := by
  rcases he : natToDec n with _ | ⟨c, cs⟩
  · exact absurd he (natToBaseAux_ne_nil 10 (n + 1) n (by omega))
  · exact ⟨c, cs, rfl, mem_natToDec n c (by rw [he]; exact List.mem_cons_self _ _)⟩

/-- `takeWhile` and `dropWhile` split exactly at the first character
failing the predicate. -/
theorem takeWhile_dropWhile_append (p : Char → Bool) (l : List Char) (x : Char)
    (r : List Char) (hl : ∀ c ∈ l, p c = true) (hx : p x = false) :
    (l ++ x :: r).takeWhile p = l ∧ (l ++ x :: r).dropWhile p = x :: r := by
  induction l with
  | nil =>
    constructor
    · rw [List.nil_append, List.takeWhile_cons, hx]
      simp
    · rw [List.nil_append, List.dropWhile_cons, hx]
      simp
  | cons c l ih =>
    have hc : p c = true := hl c (List.mem_cons_self _ _)
    have ihl : ∀ d ∈ l, p d = true := fun d hd => hl d (List.mem_cons_of_mem _ hd)
    obtain ⟨ih1, ih2⟩ := ih ihl
    constructor
    · rw [List.cons_append, List.takeWhile_cons, hc]
      simp only [ih1]
      simp
    · rw [List.cons_append, List.dropWhile_cons, hc]
      simp only [ih2]
      simp

/-- Splitting a separator-free string yields the single piece. -/
theorem splitSep_not_mem (sep : Char) (l : List Char) (h : sep ∉ l) :
    splitSep sep l = [l] := by
  induction l with
  | nil => rfl
  | cons c l ih =>
    rw [splitSep]
    rw [if_neg (by
      intro he
      exact h (he ▸ List.mem_cons_self _ _))]
    rw [ih (fun hm => h (List.mem_cons_of_mem _ hm))]

/-- Splitting takes off the piece before the first separator. -/
theorem splitSep_append (sep : Char) (l r : List Char) (h : sep ∉ l) :
    splitSep sep (l ++ sep :: r) = l :: splitSep sep r := by
  induction l with
  | nil =>
    rw [List.nil_append, splitSep, if_pos rfl]
  | cons c l ih =>
    rw [List.cons_append, splitSep]
    rw [if_neg (by
      intro he
      exact h (he ▸ List.mem_cons_self _ _))]
    rw [ih (fun hm => h (List.mem_cons_of_mem _ hm))]

/-- Splitting is the inverse of joining on separator-free pieces. -/
theorem splitSep_joinSep (sep : Char) (L : List (List Char)) (hne : L ≠ [])
    (h : ∀ g ∈ L, sep ∉ g) :
    splitSep sep (joinSep sep L) = L := by
  induction L with
  | nil => exact absurd rfl hne
  | cons g L ih =>
    cases L with
    | nil =>
      show splitSep sep (joinSep sep [g]) = [g]
      rw [joinSep]
      exact splitSep_not_mem sep g (h g (List.mem_cons_self _ _))
    | cons g2 L2 =>
      show splitSep sep (g ++ sep :: joinSep sep (g2 :: L2)) = g :: g2 :: L2
      rw [splitSep_append sep g _ (h g (List.mem_cons_self _ _))]
      rw [ih (List.cons_ne_nil _ _) (fun x hx => h x (List.mem_cons_of_mem _ hx))]

/-- A character of a joined list is the separator or belongs to a
piece. -/
theorem mem_joinSep (sep : Char) (L : List (List Char)) (c : Char)
    (h : c ∈ joinSep sep L) : c = sep ∨ ∃ g ∈ L, c ∈ g := by
  induction L with
  | nil => exact absurd h (by simp [joinSep])
  | cons g L ih =>
    cases L with
    | nil =>
      right
      exact ⟨g, List.mem_cons_self _ _, by simpa [joinSep] using h⟩
    | cons g2 L2 =>
      have h2 : c ∈ g ++ sep :: joinSep sep (g2 :: L2) := h
      rw [List.mem_append, List.mem_cons] at h2
      rcases h2 with h | h | h
      · exact Or.inr ⟨g, List.mem_cons_self _ _, h⟩
      · exact Or.inl h
      · rcases ih h with h1 | ⟨g3, hg3, hc3⟩
        · exact Or.inl h1
        · exact Or.inr ⟨g3, List.mem_cons_of_mem _ hg3, hc3⟩

/-- Mapping a fallible inverse over rendered elements succeeds with the
original list. -/
theorem mapOption_map {α β : Type} (f : β → Option α) (m : α → β) (gs : List α)
    (h : ∀ g ∈ gs, f (m g) = some g) : mapOption? f (gs.map m) = some gs := by
  induction gs with
  | nil => rfl
  | cons g gs ih =>
    rw [List.map_cons, mapOption?]
    rw [h g (List.mem_cons_self _ _)]
    rw [ih (fun x hx => h x (List.mem_cons_of_mem _ hx))]

/-- An IPv4 octet round-trips through its decimal text. -/
theorem parseOctet_natToDec (x : Nat) (h : x < 256) :
    parseOctet? (natToDec x) = some x := by
  unfold parseOctet?
  rw [parseBase_natToDec]
  try dsimp only
  rw [if_pos h]

/-- A port round-trips through its decimal text. -/
theorem parsePort_natToDec (p : Nat) (h : p < 65536) :
    parsePort? (natToDec p) = some p := by
  unfold parsePort?
  rw [parseBase_natToDec]
  try dsimp only
  rw [if_pos h]

/-- An IPv6 group round-trips through its hexadecimal text. -/
theorem parseGroup_natToHex (g : Nat) (h : g < 65536) :
    parseGroup? (natToHex g) = some g := by
  unfold parseGroup?
  rw [parseBase_natToHex]
  try dsimp only
  rw [if_pos h]

/-- The dotted-quad text of an IPv4 address contains no colon. -/
theorem colon_not_mem_v4 (x y z w : Nat) : ':' ∉ inetNtopV4 x y z w := by
  unfold inetNtopV4
  intro hmem
  rw [List.append_assoc, List.append_assoc, List.cons_append, List.cons_append] at hmem
  rcases List.mem_append.mp hmem with h | h
  · exact not_mem_natToDec x ':' (by decide) h
  · rcases List.mem_cons.mp h with h | h
    · exact absurd h (by decide)
    · rcases List.mem_append.mp h with h | h
      · exact not_mem_natToDec y ':' (by decide) h
      · rcases List.mem_cons.mp h with h | h
        · exact absurd h (by decide)
        · rcases List.mem_append.mp h with h | h
          · exact not_mem_natToDec z ':' (by decide) h
          · rcases List.mem_cons.mp h with h | h
            · exact absurd h (by decide)
            · exact not_mem_natToDec w ':' (by decide) h

/-- Splitting the dotted quad at the dots recovers the four octet
texts. -/
theorem splitSep_dot_v4 (x y z w : Nat) :
    splitSep '.' (inetNtopV4 x y z w) =
      [natToDec x, natToDec y, natToDec z, natToDec w] := by
  unfold inetNtopV4
  rw [List.append_assoc, List.append_assoc, List.cons_append, List.cons_append]
  rw [splitSep_append '.' _ _ (not_mem_natToDec x '.' (by decide))]
  rw [splitSep_append '.' _ _ (not_mem_natToDec y '.' (by decide))]
  rw [splitSep_append '.' _ _ (not_mem_natToDec z '.' (by decide))]
  rw [splitSep_not_mem '.' _ (not_mem_natToDec w '.' (by decide))]

/-- The IPv6 host text contains no closing bracket. -/
theorem rbracket_not_mem_v6 (gs : List Nat) :
    ∀ c ∈ inetNtopV6 gs, neRBracket c = true := by
  intro c hc
  unfold inetNtopV6 at hc
  rcases mem_joinSep ':' _ c hc with h1 | ⟨g, hg, hcg⟩
  · subst h1
    decide
  · obtain ⟨g0, _, rfl⟩ := List.mem_map.mp hg
    have hdig := mem_natToHex g0 c hcg
    have hne : c ≠ ']' := by
      intro he
      rw [he] at hdig
      exact absurd hdig (by decide)
    exact decide_eq_true hne

/-- Splitting the IPv6 host text at the colons recovers the eight group
texts. -/
theorem splitSep_colon_v6 (gs : List Nat) (h8 : gs.length = 8) :
    splitSep ':' (inetNtopV6 gs) = gs.map natToHex := by
  unfold inetNtopV6
  apply splitSep_joinSep
  · intro he
    have h0 : gs = [] := List.map_eq_nil.mp he
    rw [h0] at h8
    exact absurd h8 (by decide)
  · intro g hg
    obtain ⟨g0, _, rfl⟩ := List.mem_map.mp hg
    exact not_mem_natToHex g0 ':' (by decide)

/-- Parsing the rendered groups recovers the group values. -/
theorem mapOption_groups (gs : List Nat) (hgs : ∀ g ∈ gs, g < 65536) :
    mapOption? parseGroup? (gs.map natToHex) = some gs :=
  mapOption_map parseGroup? natToHex gs (fun g hg => parseGroup_natToHex g (hgs g hg))

/-- The IPv4 text form parses back to its components. -/
theorem parseV4_roundtrip (x y z w port : Nat) (hx : x < 256) (hy : y < 256)
    (hz : z < 256) (hw : w < 256) (hp : port < 65536) :
    parseV4? (inetNtopV4 x y z w ++ ':' :: natToDec port) =
      some (.v4 x y z w port) := by
  unfold parseV4?
  rw [splitSep_append ':' _ _ (colon_not_mem_v4 x y z w)]
  rw [splitSep_not_mem ':' _ (not_mem_natToDec port ':' (by decide))]
  try dsimp only
  rw [splitSep_dot_v4 x y z w]
  try dsimp only
  rw [parseOctet_natToDec x hx, parseOctet_natToDec y hy, parseOctet_natToDec z hz,
    parseOctet_natToDec w hw, parsePort_natToDec port hp]

/-- The IPv6 text form parses back to its components. -/
theorem parseV6_roundtrip (gs : List Nat) (port : Nat) (h8 : gs.length = 8)
    (hgs : ∀ g ∈ gs, g < 65536) (hp : port < 65536) :
    parseV6? (inetNtopV6 gs ++ ']' :: ':' :: natToDec port) =
      some (.v6 gs port) := by
  obtain ⟨ht, hd⟩ := takeWhile_dropWhile_append neRBracket (inetNtopV6 gs) ']'
    (':' :: natToDec port) (rbracket_not_mem_v6 gs) (by decide)
  unfold parseV6?
  try dsimp only
  rw [ht, hd]
  try dsimp only
  rw [if_pos ⟨rfl, rfl⟩]
  rw [splitSep_colon_v6 gs h8]
  rw [mapOption_groups gs hgs]
  try dsimp only
  rw [if_pos h8]
  rw [parsePort_natToDec port hp]

/-- C9.  For every well-formed IPv4 or IPv6 address value (family, IP,
port), formatting it with `sio_addr_to_string` and parsing the text
back yields an equal address.  Both `sio_addr_from_string` (declared
but not implemented in the sources) and the system
`inet_ntop`/`inet_pton` are modelled from the spec. -/
theorem claim_C9 (a : Addr) (h : addrWF a) :
    addrFromString? (addrToString a) = some a := by
  cases a with
  | v4 x y z w port =>
    obtain ⟨hx, hy, hz, hw, hp⟩ := h
    obtain ⟨c, cs, hcons, hdig⟩ := natToDec_cons x
    have hne : c ≠ '[' := by
      intro he
      rw [he] at hdig
      exact absurd hdig (by decide)
    have hstr : addrToString (Addr.v4 x y z w port) =
        c :: ((((cs ++ '.' :: natToDec y) ++ '.' :: natToDec z) ++
          '.' :: natToDec w) ++ ':' :: natToDec port) := by
      show inetNtopV4 x y z w ++ ':' :: natToDec port = _
      unfold inetNtopV4
      rw [hcons]
      simp only [List.cons_append]
    rw [hstr]
    simp only [addrFromString?]
    rw [if_neg hne]
    rw [← hstr]
    exact parseV4_roundtrip x y z w port hx hy hz hw hp
  | v6 gs port =>
    obtain ⟨h8, hgs, hp⟩ := h
    show addrFromString?
      ('[' :: (inetNtopV6 gs ++ ']' :: ':' :: natToDec port)) = _
    simp only [addrFromString?]
    rw [if_pos trivial]
    exact parseV6_roundtrip gs port h8 hgs hp

/-- Witness for C9 at concrete inputs: the UDP test address
`127.0.0.1:9877` and the IPv6 loopback `[0:0:0:0:0:0:0:1]:80`. -/
theorem claim_C9_witness :
    (addrWF (.v4 127 0 0 1 9877) ∧
      addrFromString? (addrToString (.v4 127 0 0 1 9877)) =
        some (.v4 127 0 0 1 9877)) ∧
    (addrWF (.v6 [0, 0, 0, 0, 0, 0, 0, 1] 80) ∧
      addrFromString? (addrToString (.v6 [0, 0, 0, 0, 0, 0, 0, 1] 80)) =
        some (.v6 [0, 0, 0, 0, 0, 0, 0, 1] 80)) :=
  ⟨⟨by decide, claim_C9 (.v4 127 0 0 1 9877) (by decide)⟩,
   ⟨by decide, claim_C9 (.v6 [0, 0, 0, 0, 0, 0, 0, 1] 80) (by decide)⟩⟩

end Sio
